import Mathlib

/-!
Verification development for the LLaVA-WorldSense session server core
(`src/web_server.py`, `src/llava_engine.py`, `src/tts_engine.py`).

The Python code is shallowly embedded: pure fragments become Lean
functions, the per-connection dispatcher and the monitoring tasks become
an explicit state-transition system, and external collaborators
(base64/PIL image decoding, the vision-language model, the speech and
audio backends) are opaque parameters supplied through environment
records.  Machine-level details (actual pixels, actual audio bytes) are
irrelevant to the properties below and are represented by type
parameters.
-/

/-- `sub` is a prefix of `s` (executable, on character lists). -/
def listStartsWith : List Char → List Char → Bool
  | [], _ => true
  | _ :: _, [] => false
  | a :: as, b :: bs => a = b && listStartsWith as bs

/-- `sub` occurs somewhere inside `s` (executable, on character lists). -/
def listContains (sub : List Char) : List Char → Bool
  | [] => listStartsWith sub []
  | b :: bs => listStartsWith sub (b :: bs) || listContains sub bs

/-- Python's `sub in s` on strings: substring containment, as a Bool. -/
def pyIn (sub s : String) : Bool := listContains sub.data s.data

/-- Python's `s.lower()`: ASCII lowercasing of every character (the
question strings involved are ASCII, where `str.lower` and
`Char.toLower` agree). -/
def pyLower (s : String) : String := ⟨s.data.map Char.toLower⟩

/-- A Python whitespace character, as stripped by `str.strip()`. -/
def pySpace (c : Char) : Bool :=
  c = ' ' || c = '\t' || c = '\n' || c = '\r' || c = '\x0b' || c = '\x0c'

/-- Python's `s.strip()`: remove leading and trailing whitespace. -/
def pyStrip (s : String) : String :=
  ⟨((s.data.dropWhile pySpace).reverse.dropWhile pySpace).reverse⟩

/-- Outbound wire messages of the protocol (`web_server.py`): each
constructor is one `type` discriminant with its fields. -/
inductive OutMsg where
  | pong : OutMsg
  | monitoring_status (active : Bool) (message : String) : OutMsg
  | vision_update (observation : String) (timestamp : Nat) : OutMsg
  | llava_start (question : String) : OutMsg
  | response_chunk (text : String) (done : Bool) : OutMsg
  | response_complete (full_text : String) (audio_url : Option String) (done : Bool) : OutMsg
  | error (message : String) : OutMsg
  deriving Repr, DecidableEq

namespace TTSModel

/-- Embedding of `TTSEngine` (`tts_engine.py`).  `backend` is the string
set by `_init_backend`; `backendFails` models whether the backend call
for a given text raises (network failure, missing module, ...);
`filename` models the md5+uuid generated file name for a text. -/
structure TTSEngine where
  backend : String
  backendFails : String → Bool
  filename : String → String

/-- Embedding of `TTSEngine.synthesize` (`tts_engine.py` lines 70-108):
blank text returns `None`; an unrecognized backend returns `None`; a
backend exception is caught and returns `None`; otherwise the relative
audio path is returned. -/
def TTSEngine.synthesize (e : TTSEngine) (text : String) : Option String :=
  if text = "" || pyStrip text = "" then
    none
  else if e.backend = "edge-tts" || e.backend = "gtts" || e.backend = "pyttsx3" then
    if e.backendFails text then none
    else some ("/static/audio/" ++ e.filename text)
  else
    none

end TTSModel

namespace WS

open TTSModel

/-- The fixed concision suffix appended to visual questions
(`web_server.py` line 379). -/
def conciseSuffix : String := " Answer concisely in 1-2 sentences. Focus on the main subject."

/-- The fixed persona wrapper for conversational questions
(`web_server.py` line 382). -/
def jarvisWrap : String :=
  "You are Jarvis, a helpful AI assistant. The user is talking to you. Answer their question naturally and concisely in English only. User says: "

/-- The raw question contains a visual-description cue word
(`web_server.py` line 373). -/
def hasVisualCue (raw_question : String) : Bool :=
  pyIn "what" (pyLower raw_question) || pyIn "describe" (pyLower raw_question) ||
    pyIn "see" (pyLower raw_question)

/-- The raw question contains a detail cue (`web_server.py` line 375). -/
def hasDetailCue (raw_question : String) : Bool :=
  pyIn "detail" (pyLower raw_question) || pyIn "more" (pyLower raw_question)

/-- Embedding of the effective-prompt derivation inlined in
`_handle_llava_stream` (`web_server.py` lines 373-382). -/
def enhance_prompt (raw_question : String) : String :=
  if hasVisualCue raw_question then
    if hasDetailCue raw_question then raw_question
    else raw_question ++ conciseSuffix
  else
    jarvisWrap ++ raw_question

/-- Embedding of the chunk-forwarding loop of `_handle_llava_stream`
(`web_server.py` lines 391-400): for each token of the stream, in
order, accumulate it into `full_response` and emit a
`response_chunk{text, done:false}`; returns the emitted messages and
the final accumulated text. -/
def relayChunkLoop : List String → String → List OutMsg × String
  | [], full_response => ([], full_response)
  | token :: ts, full_response =>
    let rest := relayChunkLoop ts (full_response ++ token)
    (OutMsg.response_chunk token false :: rest.1, rest.2)

/-- External collaborators consumed by the Stream Relay: image decoding
(`base64.b64decode` + `Image.open`, `none` models a raised decode
exception), the Responder's finite token stream, and the synthesizer
engine. -/
structure RelayEnv (Image : Type) where
  decodeImage : String → Option Image
  stream : Image → String → List String
  tts : TTSEngine

/-- Embedding of `_handle_llava_stream` (`web_server.py` lines 359-418)
as the ordered list of messages sent to the client for one exchange.
A missing `image` field raises `KeyError` and a non-decodable payload
raises in `b64decode`/`Image.open`; both are caught by the handler's
`except` clause, which sends a single `error` message. -/
def handle_llava_stream {Image : Type} (env : RelayEnv Image)
    (dataImage : Option String) (dataQuestion : Option String) : List OutMsg :=
  match dataImage with
  | none => [OutMsg.error "KeyError: image"]
  | some img64 =>
    match env.decodeImage img64 with
    | none => [OutMsg.error "image decode failed"]
    | some image =>
      let raw_question := dataQuestion.getD "What do you see?"
      let question := enhance_prompt raw_question
      let loop := relayChunkLoop (env.stream image question) ""
      let full_response := loop.2
      let audio_url := env.tts.synthesize full_response
      OutMsg.llava_start question :: loop.1
        ++ [OutMsg.response_complete full_response audio_url true]

end WS

namespace LLaVAModel

/-- Python's `s.split(' ')` on a list of characters: split at every
single space, keeping empty pieces; the result is always nonempty. -/
def splitSp : List Char → List (List Char)
  | [] => [[]]
  | c :: cs =>
    match splitSp cs with
    | [] => [[]]
    | w :: ws => if c = ' ' then [] :: w :: ws else (c :: w) :: ws

/-- Embedding of the word-yielding loop of the TinyLLaVA branch of
`generate_response_stream` (`llava_engine.py` lines 378-380):
`yield word + (" " if i < len(words) - 1 else "")`, i.e. every word but
the last is re-joined with a single trailing space. -/
def tinyChunks : List (List Char) → List (List Char)
  | [] => []
  | [w] => [w]
  | w :: ws => (w ++ [' ']) :: tinyChunks ws

/-- The fixed text returned and yielded when the model is not loaded
(`llava_engine.py` lines 207 and 369). -/
def errNotLoaded : List Char :=
  "Error: Model not loaded. Please wait for model initialization.".data

/-- The TinyLLaVA engine state relevant to generation: whether the
model is loaded and the opaque underlying `model.chat` text production
(which also absorbs `_generate_tinyllava`'s caught-exception strings). -/
structure TinyLLaVA (Image : Type) where
  modelLoaded : Bool
  chat : Image → String → List Char

/-- Embedding of `LLaVAEngine.generate_response` for a TinyLLaVA model
(`llava_engine.py` lines 185-218 with `is_tiny_llava = true`): the
not-loaded error string, else the backend text. -/
def generate_response {Image : Type} (e : TinyLLaVA Image)
    (image : Image) (prompt : String) : List Char :=
  if e.modelLoaded then e.chat image prompt else errNotLoaded

/-- Embedding of `LLaVAEngine.generate_response_stream` for a TinyLLaVA
model (`llava_engine.py` lines 368-380): if the model is not loaded a
single error fragment is yielded; otherwise the full response is
generated first and then yielded word by word, re-separated by single
spaces. -/
def generate_response_stream {Image : Type} (e : TinyLLaVA Image)
    (image : Image) (prompt : String) : List (List Char) :=
  if e.modelLoaded then
    let full_response := generate_response e image prompt
    tinyChunks (splitSp full_response)
  else
    [errNotLoaded]

theorem splitSp_ne_nil (l : List Char) : splitSp l ≠ [] := by
  cases l with
  | nil => simp [splitSp]
  | cons c cs =>
    simp only [splitSp]
    match h : splitSp cs with
    | [] => simp
    | w :: ws =>
      by_cases hc : c = ' ' <;> simp [hc]

/-- The space-separated join that undoes `splitSp`. -/
def joinSp : List (List Char) → List Char
  | [] => []
  | [w] => w
  | w :: ws => w ++ ' ' :: joinSp ws

theorem joinSp_splitSp (l : List Char) : joinSp (splitSp l) = l := by
  induction l with
  | nil => rfl
  | cons c cs ih =>
    simp only [splitSp]
    match h : splitSp cs with
    | [] => exact absurd h (splitSp_ne_nil cs)
    | w :: ws =>
      rw [h] at ih
      by_cases hc : c = ' '
      · subst hc
        cases ws with
        | nil => simpa [joinSp] using ih
        | cons w2 ws2 => simpa [joinSp] using ih
      · cases ws with
        | nil => simp_all [joinSp]
        | cons w2 ws2 => simp_all [joinSp]

theorem join_tinyChunks (ws : List (List Char)) :
    (tinyChunks ws).flatten = joinSp ws := by
  induction ws with
  | nil => rfl
  | cons w ws ih =>
    cases ws with
    | nil => simp [tinyChunks, joinSp]
    | cons w2 ws2 =>
      simp only [tinyChunks, joinSp, List.flatten_cons] at *
      rw [ih, List.append_assoc]
      rfl

end LLaVAModel

theorem foldl_string_append_shift (l : List String) :
    ∀ a b : String, l.foldl (· ++ ·) (a ++ b) = a ++ l.foldl (· ++ ·) b := by
  induction l with
  | nil => intro a b; rfl
  | cons x xs ih =>
    intro a b
    simp only [List.foldl_cons, String.append_assoc, ih]

theorem string_join_cons (t : String) (ts : List String) :
    String.join (t :: ts) = t ++ String.join ts := by
  show (t :: ts).foldl (· ++ ·) "" = t ++ ts.foldl (· ++ ·) ""
  rw [List.foldl_cons]
  have h : "" ++ t = t ++ "" := by simp
  rw [h, foldl_string_append_shift]

theorem relayChunkLoop_eq (ts : List String) :
    ∀ acc : String, WS.relayChunkLoop ts acc =
      (ts.map fun t => OutMsg.response_chunk t false, acc ++ String.join ts) := by
  induction ts with
  | nil =>
    intro acc
    simp [WS.relayChunkLoop, String.join]
  | cons t ts ih =>
    intro acc
    simp only [WS.relayChunkLoop, ih (acc ++ t), List.map_cons,
      string_join_cons, String.append_assoc]

/-- The successful Stream Relay exchange: decode succeeds and the
Responder stream yields `ts`; the sent messages are `llava_start`, one
chunk per token in order, then `response_complete` with the
concatenated text and the synthesizer's result. -/
theorem handle_llava_stream_success {Image : Type} (env : WS.RelayEnv Image)
    (img64 : String) (q? : Option String) (image : Image) (ts : List String)
    (hdec : env.decodeImage img64 = some image)
    (hts : env.stream image (WS.enhance_prompt (q?.getD "What do you see?")) = ts) :
    WS.handle_llava_stream env (some img64) q? =
      OutMsg.llava_start (WS.enhance_prompt (q?.getD "What do you see?"))
        :: (ts.map fun t => OutMsg.response_chunk t false)
        ++ [OutMsg.response_complete (String.join ts)
              (env.tts.synthesize (String.join ts)) true] := by
  simp only [WS.handle_llava_stream, hdec, hts, relayChunkLoop_eq]
  simp

theorem synthesize_none_of_fails (e : TTSModel.TTSEngine) (text : String)
    (h : e.backendFails text = true) : e.synthesize text = none := by
  unfold TTSModel.TTSEngine.synthesize
  rw [h]
  simp

/-- C1: for every Stream Relay exchange whose Responder stream yields
the finite token sequence `ts`, the messages sent to the client are
exactly, in order: one `llava_start`, one `response_chunk{text:tᵢ,
done:false}` per token in production order, then one
`response_complete{full_text, audio_url, done:true}` with `full_text`
the concatenation of the tokens. -/
theorem stream_relay_message_order {Image : Type} (env : WS.RelayEnv Image)
    (img64 : String) (q? : Option String) (image : Image) (ts : List String)
    (hdec : env.decodeImage img64 = some image)
    (hts : env.stream image (WS.enhance_prompt (q?.getD "What do you see?")) = ts) :
    WS.handle_llava_stream env (some img64) q? =
      OutMsg.llava_start (WS.enhance_prompt (q?.getD "What do you see?"))
        :: (ts.map fun t => OutMsg.response_chunk t false)
        ++ [OutMsg.response_complete (String.join ts)
              (env.tts.synthesize (String.join ts)) true] :=
  handle_llava_stream_success env img64 q? image ts hdec hts

/-- Concrete relay environment for the C1 witness: decoding succeeds
and the Responder streams the three tokens A, B, C. -/
def relayEnvABC : WS.RelayEnv Unit where
  decodeImage := fun _ => some ()
  stream := fun _ _ => ["A", "B", "C"]
  tts :=
    { backend := "edge-tts"
      backendFails := fun _ => false
      filename := fun _ => "a.mp3" }

theorem stream_relay_message_order_witness :
    WS.handle_llava_stream relayEnvABC (some "img") (some "hi") =
      [OutMsg.llava_start (WS.jarvisWrap ++ "hi"),
       OutMsg.response_chunk "A" false,
       OutMsg.response_chunk "B" false,
       OutMsg.response_chunk "C" false,
       OutMsg.response_complete "ABC" (some "/static/audio/a.mp3") true] := by
  have h := stream_relay_message_order relayEnvABC "img" (some "hi") ()
    ["A", "B", "C"] rfl rfl
  rw [h]
  decide

/-- C6: when the Responder stream completes but the Synthesizer fails,
the exchange still ends with `response_complete` carrying the full
accumulated text and a null audio reference, and no `error` message is
sent for the exchange. -/
theorem synthesizer_failure_isolated {Image : Type} (env : WS.RelayEnv Image)
    (img64 : String) (q? : Option String) (image : Image) (ts : List String)
    (hdec : env.decodeImage img64 = some image)
    (hts : env.stream image (WS.enhance_prompt (q?.getD "What do you see?")) = ts)
    (hfail : env.tts.backendFails (String.join ts) = true) :
    WS.handle_llava_stream env (some img64) q? =
      OutMsg.llava_start (WS.enhance_prompt (q?.getD "What do you see?"))
        :: (ts.map fun t => OutMsg.response_chunk t false)
        ++ [OutMsg.response_complete (String.join ts) none true] ∧
    ∀ m : String, OutMsg.error m ∉ WS.handle_llava_stream env (some img64) q? := by
  have hsucc := handle_llava_stream_success env img64 q? image ts hdec hts
  rw [synthesize_none_of_fails env.tts (String.join ts) hfail] at hsucc
  refine ⟨hsucc, ?_⟩
  rw [hsucc]
  intro m
  simp

/-- Concrete relay environment for the C6 witness: decoding succeeds,
the Responder streams two tokens, and the TTS backend raises. -/
def relayEnvTTSFail : WS.RelayEnv Unit where
  decodeImage := fun _ => some ()
  stream := fun _ _ => ["Hi", " there"]
  tts :=
    { backend := "edge-tts"
      backendFails := fun _ => true
      filename := fun _ => "a.mp3" }

theorem synthesizer_failure_isolated_witness :
    WS.handle_llava_stream relayEnvTTSFail (some "img") (some "hello") =
      [OutMsg.llava_start (WS.jarvisWrap ++ "hello"),
       OutMsg.response_chunk "Hi" false,
       OutMsg.response_chunk " there" false,
       OutMsg.response_complete "Hi there" none true] ∧
    ∀ m : String, OutMsg.error m ∉
      WS.handle_llava_stream relayEnvTTSFail (some "img") (some "hello") := by
  have h := synthesizer_failure_isolated relayEnvTTSFail "img" (some "hello") ()
    ["Hi", " there"] rfl rfl rfl
  refine ⟨?_, h.2⟩
  rw [h.1]
  decide

/-- C8: the effective-prompt derivation is a pure function of the raw
question (it is a Lean function of the question alone, with no
Responder parameter): a lowercased visual cue without a detail cue
appends the fixed concision instruction, and a question with no visual
cue is wrapped in the fixed persona-and-concision instruction. -/
theorem enhance_prompt_characterization (q : String) :
    (WS.hasVisualCue q = true → WS.hasDetailCue q = false →
      WS.enhance_prompt q = q ++ WS.conciseSuffix) ∧
    (WS.hasVisualCue q = false →
      WS.enhance_prompt q = WS.jarvisWrap ++ q) := by
  constructor
  · intro h1 h2
    simp [WS.enhance_prompt, h1, h2]
  · intro h1
    simp [WS.enhance_prompt, h1]

theorem enhance_prompt_characterization_witness :
    WS.enhance_prompt "what is this" = "what is this" ++ WS.conciseSuffix ∧
    WS.enhance_prompt "hello there" = WS.jarvisWrap ++ "hello there" :=
  ⟨(enhance_prompt_characterization "what is this").1 (by decide) (by decide),
   (enhance_prompt_characterization "hello there").2 (by decide)⟩

/-- C10: for the TinyLLaVA backend, the concatenation of all fragments
yielded by `generate_response_stream` equals exactly the string
`generate_response` returns for the same image, prompt and generation
parameters. -/
theorem tiny_stream_refines_generate {Image : Type} (e : LLaVAModel.TinyLLaVA Image)
    (image : Image) (prompt : String) :
    (LLaVAModel.generate_response_stream e image prompt).flatten =
      LLaVAModel.generate_response e image prompt := by
  unfold LLaVAModel.generate_response_stream LLaVAModel.generate_response
  by_cases h : e.modelLoaded
  · simp only [h, if_true]
    rw [LLaVAModel.join_tinyChunks, LLaVAModel.joinSp_splitSp]
  · simp [h, LLaVAModel.generate_response]

/-! ## The connection/session state machine

`websocket_endpoint`, `ConnectionManager` and the monitoring tasks of
`web_server.py` are embedded as a transition system.  Python dict
objects survive as long as something references them (the registry or a
`monitor_loop` closure), so session dicts live in an identity-indexed
store and the registry maps client ids to identities. -/

/-- Python-dict association lookup (first binding wins; the update and
removal operations below keep keys unique). -/
def alookup {κ α : Type} [DecidableEq κ] : List (κ × α) → κ → Option α
  | [], _ => none
  | p :: ps, k => if p.1 = k then some p.2 else alookup ps k

/-- Python dict deletion `del d[k]` (removes every binding of `k`). -/
def dictRemove {κ α : Type} [DecidableEq κ] : List (κ × α) → κ → List (κ × α)
  | [], _ => []
  | p :: ps, k => if p.1 = k then dictRemove ps k else p :: dictRemove ps k

/-- Python dict assignment `d[k] = v`: replaces any existing binding. -/
def dictInsert {κ α : Type} [DecidableEq κ] (d : List (κ × α)) (k : κ) (v : α) :
    List (κ × α) :=
  (k, v) :: dictRemove d k

namespace WS

/-- One per-connection session dict, as built by
`ConnectionManager.connect` (`web_server.py` lines 35-40).
`last_frame` distinguishes the dict key being absent (`none`, as at
creation) from being set (`some v`); the stored value `v` is the raw
`data.get("image")` result, itself optional since the field may be
missing.  `monitoring_task` holds the task handle, if one was ever
assigned. -/
structure Session where
  monitoring : Bool
  last_frame : Option (Option String)
  last_frame_time : Nat
  monitoring_task : Option Nat
  deriving Repr, DecidableEq

/-- The dict stored at connect time (`web_server.py` lines 35-40). -/
def freshSession : Session :=
  { monitoring := false, last_frame := none, last_frame_time := 0,
    monitoring_task := none }

/-- One WebSocket connection, i.e. one invocation of
`websocket_endpoint`: `sid` is the identity of the session dict created
for it (which is also how we name its websocket), `client_id` the
generated id, `isOpen` whether the transport is still open. -/
structure Conn where
  sid : Nat
  client_id : String
  isOpen : Bool
  deriving Repr, DecidableEq

/-- A created `monitor_loop` task: handle `tid`, the session dict its
closure captures, and the connection whose websocket it captures (the
websocket of the dispatcher that called `_start_monitoring`). -/
structure MonTask where
  tid : Nat
  sessionSid : Nat
  dest : Nat
  deriving Repr, DecidableEq

/-- A message delivered to a client: receiving connection, producing
monitor task (`none` for dispatcher/relay sends), payload. -/
structure TraceEntry where
  dest : Nat
  producedBy : Option Nat
  msg : OutMsg
  deriving Repr, DecidableEq

/-- Whole-server state: fresh-identity counters, the session-dict
store, `ConnectionManager.active_connections`, all connections, all
created monitor tasks, the cancelled task handles, and the delivered
messages. -/
structure Sys where
  nextSid : Nat
  nextTid : Nat
  store : List (Nat × Session)
  active_connections : List (String × Nat)
  conns : List Conn
  tasks : List MonTask
  cancelled : List Nat
  trace : List TraceEntry
  deriving Repr, DecidableEq

/-- The empty server. -/
def initSys : Sys :=
  { nextSid := 0, nextTid := 0, store := [], active_connections := [],
    conns := [], tasks := [], cancelled := [], trace := [] }

/-- `client_id = f"client_{int(time.time() * 1000)}"`
(`web_server.py` line 226), as a function of the connect-time
millisecond clock value. -/
def clientIdOf (tMillis : Nat) : String := "client_" ++ toString tMillis

/-- Session-dict lookup by identity. -/
def lookupSession (s : Sys) (sid : Nat) : Option Session := alookup s.store sid

/-- Rebind the session dict with identity `sid` (mutation of the shared
dict object). -/
def updateStore : List (Nat × Session) → Nat → Session → List (Nat × Session)
  | [], _, _ => []
  | p :: ps, sid, sess =>
    if p.1 = sid then (sid, sess) :: updateStore ps sid sess
    else p :: updateStore ps sid sess

/-- Embedding of `ConnectionManager.get_session` (lines 59-61), also
returning the dict identity. -/
def get_session (s : Sys) (client_id : String) : Option (Nat × Session) :=
  match alookup s.active_connections client_id with
  | none => none
  | some sid =>
    match lookupSession s sid with
    | none => none
    | some sess => some (sid, sess)

/-- Embedding of `ConnectionManager.connect` plus the `client_id`
generation of `websocket_endpoint` (lines 226-227 and 32-41) at
connect-time `tMillis`: a fresh session dict is created and the
registry binding for the generated id is overwritten. -/
def connectStep (s : Sys) (tMillis : Nat) : Sys :=
  let client_id := clientIdOf tMillis
  let sid := s.nextSid
  { s with
    nextSid := sid + 1
    store := (sid, freshSession) :: s.store
    active_connections := dictInsert s.active_connections client_id sid
    conns := ⟨sid, client_id, true⟩ :: s.conns }

/-- Embedding of `ConnectionManager.disconnect` (lines 43-51): if the
id is registered, cancel the registered session's task handle (if any)
and delete the registry entry; unknown ids are a no-op. -/
def disconnect (s : Sys) (client_id : String) : Sys :=
  match alookup s.active_connections client_id with
  | none => s
  | some sid =>
    let s1 :=
      match (lookupSession s sid).bind (fun sess => sess.monitoring_task) with
      | some tid => { s with cancelled := tid :: s.cancelled }
      | none => s
    { s1 with active_connections := dictRemove s1.active_connections client_id }

/-- Embedding of `ConnectionManager.send_message` (lines 53-57): no-op
if the id is no longer registered; otherwise the message goes to the
websocket stored in the registered session dict, i.e. the connection
that created that dict. -/
def send_message (s : Sys) (client_id : String) (m : OutMsg) : Sys :=
  match alookup s.active_connections client_id with
  | none => s
  | some sid => { s with trace := s.trace ++ [⟨sid, none, m⟩] }

/-- Embedding of `_start_monitoring` (lines 282-339), dispatched by
connection `conn` (whose websocket receives the status reply and is
captured by a newly created task): a missing session returns silently;
an already-monitoring session only gets a status reply; otherwise the
monitoring flag is set, a status reply is sent and a fresh task is
created and recorded in the session dict. -/
def start_monitoring (s : Sys) (conn : Nat) (client_id : String) : Sys :=
  match get_session s client_id with
  | none => s
  | some (sid, sess) =>
    if sess.monitoring then
      { s with trace := s.trace ++
          [⟨conn, none, OutMsg.monitoring_status true "Monitoring already active"⟩] }
    else
      let tid := s.nextTid
      { s with
        store := updateStore s.store sid
          { sess with monitoring := true, monitoring_task := some tid }
        nextTid := tid + 1
        tasks := ⟨tid, sid, conn⟩ :: s.tasks
        trace := s.trace ++
          [⟨conn, none,
            OutMsg.monitoring_status true "Continuous vision monitoring started"⟩] }

/-- Embedding of `_stop_monitoring` (lines 341-357): a missing session
returns silently (no message); otherwise the monitoring flag is
cleared, the task handle (if any) is cancelled — but not cleared — and
the status message is sent through `send_message`. -/
def stop_monitoring (s : Sys) (client_id : String) : Sys :=
  match get_session s client_id with
  | none => s
  | some (sid, sess) =>
    let s1 := { s with store := updateStore s.store sid { sess with monitoring := false } }
    let s2 :=
      match sess.monitoring_task with
      | some tid => { s1 with cancelled := tid :: s1.cancelled }
      | none => s1
    send_message s2 client_id
      (OutMsg.monitoring_status false "Continuous vision monitoring stopped")

/-- Embedding of the `camera_frame` branch of the dispatcher (lines
262-267): the raw payload is stored into the session dict without any
decoding or validation, together with the receive time; no reply is
sent. -/
def handle_camera_frame (s : Sys) (client_id : String) (payload : Option String)
    (tNow : Nat) : Sys :=
  match get_session s client_id with
  | none => s
  | some (sid, sess) =>
    { s with store := (updateStore s.store sid
        { sess with last_frame := some payload, last_frame_time := tNow }) }

/-- Why the dispatcher loop of `websocket_endpoint` terminated. -/
inductive ExitReason where
  | transport_disconnect : ExitReason
  | dispatch_error : ExitReason
  deriving Repr, DecidableEq

/-- The transport closes the connection when the endpoint handler
returns. -/
def closeConn (s : Sys) (conn : Nat) : Sys :=
  { s with conns := (s.conns.map
      fun c => if c.sid = conn then { c with isOpen := false } else c) }

/-- Embedding of the termination path of `websocket_endpoint` (lines
275-280): both `except WebSocketDisconnect` and the catch-all `except
Exception` invoke `ConnectionManager.disconnect` for the connection's
client id, after which the transport is closed. -/
def websocket_endpoint_exit (s : Sys) (conn : Nat) (client_id : String)
    (r : ExitReason) : Sys :=
  match r with
  | ExitReason.transport_disconnect => closeConn (disconnect s client_id) conn
  | ExitReason.dispatch_error => closeConn (disconnect s client_id) conn

/-- External collaborators seen by a monitoring tick: image decoding
(`base64.b64decode` + `Image.open`) and the Responder's short-form
observation. -/
structure MonitorEnv (Image : Type) where
  decodeImage : String → Option Image
  observe : Image → String

/-- A connection is currently open. -/
def ConnOpen (s : Sys) (sid : Nat) : Prop :=
  ∃ c ∈ s.conns, c.sid = sid ∧ c.isOpen = true

/-- A connection exists and has been closed. -/
def ConnClosed (s : Sys) (sid : Nat) : Prop :=
  ∃ c ∈ s.conns, c.sid = sid ∧ c.isOpen = false

/-- A monitor task that is still outstanding: created and not (yet)
cancelled.  (A task whose session stopped monitoring exits by itself at
its next `while` check; stopping always also cancels, so cancellation
is the observable boundary.) -/
def outstanding (s : Sys) (τ : MonTask) : Prop :=
  τ ∈ s.tasks ∧ τ.tid ∉ s.cancelled

/-- One interleaving step of the server: a connection accept, one
dispatched inbound message on an open connection, a dispatcher
termination, or one successful monitoring tick.  A tick that finds no
frame, fails to decode, or whose send raises changes no state and is
omitted (it would be a stutter step).  A Stream Relay exchange runs
inside the dispatcher and only sends messages to the dispatching
connection's own websocket; its sends are abstracted as an arbitrary
message list. -/
inductive Step {Image : Type} (env : MonitorEnv Image) : Sys → Sys → Prop where
  | connect (s : Sys) (tMillis : Nat) :
      Step env s (connectStep s tMillis)
  | ping (s : Sys) (c : Conn) (hc : c ∈ s.conns) (hopen : c.isOpen = true) :
      Step env s { s with trace := s.trace ++ [⟨c.sid, none, OutMsg.pong⟩] }
  | start_mon (s : Sys) (c : Conn) (hc : c ∈ s.conns) (hopen : c.isOpen = true) :
      Step env s (start_monitoring s c.sid c.client_id)
  | stop_mon (s : Sys) (c : Conn) (hc : c ∈ s.conns) (hopen : c.isOpen = true) :
      Step env s (stop_monitoring s c.client_id)
  | camera_frame (s : Sys) (c : Conn) (payload : Option String) (tNow : Nat)
      (hc : c ∈ s.conns) (hopen : c.isOpen = true) :
      Step env s (handle_camera_frame s c.client_id payload tNow)
  | relay (s : Sys) (c : Conn) (msgs : List OutMsg)
      (hc : c ∈ s.conns) (hopen : c.isOpen = true) :
      Step env s { s with trace := s.trace ++ msgs.map (fun m => ⟨c.sid, none, m⟩) }
  | unknown_msg (s : Sys) (c : Conn) (m : String)
      (hc : c ∈ s.conns) (hopen : c.isOpen = true) :
      Step env s { s with trace := s.trace ++
        [⟨c.sid, none, OutMsg.error ("Unknown message type: " ++ m)⟩] }
  | exit_loop (s : Sys) (c : Conn) (r : ExitReason)
      (hc : c ∈ s.conns) (hopen : c.isOpen = true) :
      Step env s (websocket_endpoint_exit s c.sid c.client_id r)
  | tick_send (s : Sys) (τ : MonTask) (sess : Session) (payload : String)
      (img : Image) (tNow : Nat)
      (hτ : τ ∈ s.tasks) (halive : τ.tid ∉ s.cancelled)
      (hsess : lookupSession s τ.sessionSid = some sess)
      (hmon : sess.monitoring = true)
      (hframe : sess.last_frame = some (some payload))
      (hdec : env.decodeImage payload = some img)
      (hdest : ConnOpen s τ.dest) :
      Step env s { s with trace := s.trace ++
        [⟨τ.dest, some τ.tid, OutMsg.vision_update (env.observe img) tNow⟩] }

/-- Finite step sequences. -/
inductive Steps {Image : Type} (env : MonitorEnv Image) : Sys → Sys → Prop where
  | refl (s : Sys) : Steps env s s
  | tail {s t u : Sys} : Steps env s t → Step env t u → Steps env s u

/-- States the server can be in. -/
def Reachable {Image : Type} (env : MonitorEnv Image) (s : Sys) : Prop :=
  Steps env initSys s

end WS

/-! ### Association-list lemmas -/

theorem alookup_mem {κ α : Type} [DecidableEq κ] {l : List (κ × α)} {k : κ} {v : α}
    (h : alookup l k = some v) : (k, v) ∈ l := by
  induction l with
  | nil => simp [alookup] at h
  | cons p ps ih =>
    by_cases hp : p.1 = k
    · rw [alookup, if_pos hp] at h
      have hv : p.2 = v := Option.some.inj h
      have hpe : p = (k, v) := by
        cases p
        simp_all
      rw [← hpe]
      exact List.mem_cons_self p ps
    · rw [alookup, if_neg hp] at h
      exact List.mem_cons_of_mem _ (ih h)

theorem alookup_dictRemove_self {κ α : Type} [DecidableEq κ] (l : List (κ × α)) (k : κ) :
    alookup (dictRemove l k) k = none := by
  induction l with
  | nil => rfl
  | cons p ps ih =>
    by_cases hp : p.1 = k
    · rw [dictRemove, if_pos hp]
      exact ih
    · rw [dictRemove, if_neg hp, alookup, if_neg hp]
      exact ih

theorem alookup_dictRemove_other {κ α : Type} [DecidableEq κ] (l : List (κ × α))
    (k k' : κ) (h : k' ≠ k) : alookup (dictRemove l k) k' = alookup l k' := by
  induction l with
  | nil => rfl
  | cons p ps ih =>
    by_cases hp : p.1 = k
    · have h2 : ¬ p.1 = k' := by
        rw [hp]
        exact fun hh => h hh.symm
      rw [dictRemove, if_pos hp, alookup, if_neg h2]
      exact ih
    · rw [dictRemove, if_neg hp]
      by_cases hk : p.1 = k'
      · rw [alookup, if_pos hk, alookup, if_pos hk]
      · rw [alookup, if_neg hk, alookup, if_neg hk]
        exact ih

theorem mem_dictRemove {κ α : Type} [DecidableEq κ] {l : List (κ × α)} {k : κ}
    {p : κ × α} (h : p ∈ dictRemove l k) : p ∈ l ∧ p.1 ≠ k := by
  induction l with
  | nil => simp [dictRemove] at h
  | cons q qs ih =>
    by_cases hq : q.1 = k
    · rw [dictRemove, if_pos hq] at h
      obtain ⟨h1, h2⟩ := ih h
      exact ⟨List.mem_cons_of_mem _ h1, h2⟩
    · rw [dictRemove, if_neg hq] at h
      rcases List.mem_cons.mp h with h1 | h1
      · subst h1
        exact ⟨List.mem_cons_self _ _, hq⟩
      · obtain ⟨h2, h3⟩ := ih h1
        exact ⟨List.mem_cons_of_mem _ h2, h3⟩

theorem mem_dictInsert {κ α : Type} [DecidableEq κ] {l : List (κ × α)} {k : κ} {v : α}
    {p : κ × α} (h : p ∈ dictInsert l k v) : p = (k, v) ∨ (p ∈ l ∧ p.1 ≠ k) := by
  rcases List.mem_cons.mp h with h1 | h1
  · exact Or.inl h1
  · exact Or.inr (mem_dictRemove h1)

theorem alookup_dictInsert_self {κ α : Type} [DecidableEq κ] (l : List (κ × α))
    (k : κ) (v : α) : alookup (dictInsert l k v) k = some v := by
  rw [dictInsert, alookup, if_pos rfl]

theorem alookup_dictInsert_other {κ α : Type} [DecidableEq κ] (l : List (κ × α))
    (k k' : κ) (v : α) (h : k' ≠ k) :
    alookup (dictInsert l k v) k' = alookup l k' := by
  rw [dictInsert, alookup, if_neg (fun hh => h hh.symm)]
  exact alookup_dictRemove_other l k k' h

namespace WS

theorem mem_updateStore {store : List (Nat × Session)} {sid : Nat} {sess : Session}
    {p : Nat × Session} (h : p ∈ updateStore store sid sess) :
    p = (sid, sess) ∨ (p ∈ store ∧ p.1 ≠ sid) := by
  induction store with
  | nil => simp [updateStore] at h
  | cons q qs ih =>
    by_cases hq : q.1 = sid
    · rw [updateStore, if_pos hq] at h
      rcases List.mem_cons.mp h with h1 | h1
      · exact Or.inl h1
      · rcases ih h1 with h2 | ⟨h2, h3⟩
        · exact Or.inl h2
        · exact Or.inr ⟨List.mem_cons_of_mem _ h2, h3⟩
    · rw [updateStore, if_neg hq] at h
      rcases List.mem_cons.mp h with h1 | h1
      · subst h1
        exact Or.inr ⟨List.mem_cons_self _ _, hq⟩
      · rcases ih h1 with h2 | ⟨h2, h3⟩
        · exact Or.inl h2
        · exact Or.inr ⟨List.mem_cons_of_mem _ h2, h3⟩

theorem alookup_updateStore_other (store : List (Nat × Session)) (sid : Nat)
    (sess : Session) (k : Nat) (h : k ≠ sid) :
    alookup (updateStore store sid sess) k = alookup store k := by
  induction store with
  | nil => rfl
  | cons p ps ih =>
    by_cases hp : p.1 = sid
    · have h2 : ¬ (sid = k) := fun hh => h hh.symm
      rw [updateStore, if_pos hp, alookup]
      rw [if_neg (show ¬ ((sid, sess).1 = k) from h2)]
      rw [alookup, hp, if_neg h2]
      exact ih
    · rw [updateStore, if_neg hp]
      by_cases hk : p.1 = k
      · rw [alookup, if_pos hk, alookup, if_pos hk]
      · rw [alookup, if_neg hk, alookup, if_neg hk]
        exact ih

theorem alookup_updateStore_self (store : List (Nat × Session)) (sid : Nat)
    (sess : Session) (h : (alookup store sid).isSome) :
    alookup (updateStore store sid sess) sid = some sess := by
  induction store with
  | nil => simp [alookup] at h
  | cons p ps ih =>
    by_cases hp : p.1 = sid
    · rw [updateStore, if_pos hp, alookup, if_pos rfl]
    · rw [alookup, if_neg hp] at h
      rw [updateStore, if_neg hp, alookup, if_neg hp]
      exact ih h

end WS

theorem alookup_none_not_mem {κ α : Type} [DecidableEq κ] {l : List (κ × α)} {k : κ}
    (h : alookup l k = none) : ∀ p ∈ l, p.1 ≠ k := by
  induction l with
  | nil => intro p hp; simp at hp
  | cons q qs ih =>
    intro p hp
    by_cases hq : q.1 = k
    · rw [alookup, if_pos hq] at h
      cases h
    · rw [alookup, if_neg hq] at h
      rcases List.mem_cons.mp hp with h1 | h1
      · rw [h1]; exact hq
      · exact ih h p h1

namespace WS

/-- Well-formedness of a server state: identity counters really are
fresh, the registry refers only to open connections and existing
session dicts, every live (uncancelled) monitor task is recorded in its
session's `monitoring_task` slot with the monitoring flag set, and a
stopped session's recorded task handle is always already cancelled. -/
structure Inv (s : Sys) : Prop where
  connsSidUnique : ∀ c1 ∈ s.conns, ∀ c2 ∈ s.conns, c1.sid = c2.sid → c1 = c2
  connSidBound : ∀ c ∈ s.conns, c.sid < s.nextSid
  storeKeyBound : ∀ p ∈ s.store, p.1 < s.nextSid
  storeKeysUnique : ∀ p ∈ s.store, ∀ q ∈ s.store, p.1 = q.1 → p.2 = q.2
  taskSidBound : ∀ τ ∈ s.tasks, τ.sessionSid < s.nextSid
  tidBound : ∀ τ ∈ s.tasks, τ.tid < s.nextTid
  tidUnique : ∀ τ1 ∈ s.tasks, ∀ τ2 ∈ s.tasks, τ1.tid = τ2.tid → τ1 = τ2
  regConn : ∀ p ∈ s.active_connections,
    ∃ c ∈ s.conns, c.sid = p.2 ∧ c.client_id = p.1 ∧ c.isOpen = true
  regStore : ∀ p ∈ s.active_connections, (alookup s.store p.2).isSome
  taskMon : ∀ τ ∈ s.tasks, τ.tid ∉ s.cancelled →
    ∃ sess, lookupSession s τ.sessionSid = some sess ∧
      sess.monitoring = true ∧ sess.monitoring_task = some τ.tid
  stoppedCancelled : ∀ p ∈ s.store, p.2.monitoring = false →
    ∀ tid, p.2.monitoring_task = some tid → tid ∈ s.cancelled

theorem inv_init : Inv initSys := by
  constructor <;> intros <;> simp_all [initSys]

theorem inv_trace_ext {s : Sys} (hInv : Inv s) (tr : List TraceEntry) :
    Inv { s with trace := tr } := by
  obtain ⟨a, b, c, d, e, f, g, h, i, j, k⟩ := hInv
  exact ⟨a, b, c, d, e, f, g, h, i, j, k⟩

theorem get_session_some {s : Sys} {client_id : String} {sid : Nat} {sess : Session}
    (h : get_session s client_id = some (sid, sess)) :
    alookup s.active_connections client_id = some sid ∧
      lookupSession s sid = some sess := by
  unfold get_session at h
  split at h
  · cases h
  · rename_i sid' h1
    split at h
    · cases h
    · rename_i sess' h2
      simp only [Option.some.injEq, Prod.mk.injEq] at h
      obtain ⟨rfl, rfl⟩ := h
      exact ⟨h1, h2⟩

theorem inv_connect {s : Sys} (hInv : Inv s) (t : Nat) : Inv (connectStep s t) := by
  unfold connectStep
  refine ⟨?_, ?_, ?_, ?_, ?_, ?_, ?_, ?_, ?_, ?_, ?_⟩
  · intro c1 hc1 c2 hc2 he
    simp only [List.mem_cons] at hc1 hc2
    rcases hc1 with h1 | h1 <;> rcases hc2 with h2 | h2
    · rw [h1, h2]
    · exfalso
      have hb := hInv.connSidBound c2 h2
      rw [h1] at he
      simp only at he
      omega
    · exfalso
      have hb := hInv.connSidBound c1 h1
      rw [h2] at he
      simp only at he
      omega
    · exact hInv.connsSidUnique c1 h1 c2 h2 he
  · intro c hc
    simp only [List.mem_cons] at hc
    rcases hc with h1 | h1
    · rw [h1]; simp
    · have := hInv.connSidBound c h1
      simp only
      omega
  · intro p hp
    simp only [List.mem_cons] at hp
    rcases hp with h1 | h1
    · rw [h1]; simp
    · have := hInv.storeKeyBound p h1
      simp only
      omega
  · intro p hp q hq he
    simp only [List.mem_cons] at hp hq
    rcases hp with h1 | h1 <;> rcases hq with h2 | h2
    · rw [h1, h2]
    · exfalso
      have := hInv.storeKeyBound q h2
      rw [h1] at he
      simp only at he
      omega
    · exfalso
      have := hInv.storeKeyBound p h1
      rw [h2] at he
      simp only at he
      omega
    · exact hInv.storeKeysUnique p h1 q h2 he
  · intro τ hτ
    have := hInv.taskSidBound τ hτ
    simp only
    omega
  · exact hInv.tidBound
  · exact hInv.tidUnique
  · intro p hp
    rcases mem_dictInsert hp with h1 | ⟨h1, h2⟩
    · refine ⟨⟨s.nextSid, clientIdOf t, true⟩, List.mem_cons_self _ _, ?_⟩
      rw [h1]
      exact ⟨rfl, rfl, rfl⟩
    · obtain ⟨c, hc, hcs, hci, hco⟩ := hInv.regConn p h1
      exact ⟨c, List.mem_cons_of_mem _ hc, hcs, hci, hco⟩
  · intro p hp
    rcases mem_dictInsert hp with h1 | ⟨h1, h2⟩
    · rw [h1]
      simp [alookup]
    · obtain ⟨c, _, hcs, _, _⟩ := hInv.regConn p h1
      have hb : p.2 < s.nextSid := by
        have := hInv.connSidBound c (by assumption)
        omega
      have hne : ¬ (s.nextSid = p.2) := by omega
      simp only [alookup, if_neg hne]
      exact hInv.regStore p h1
  · intro τ hτ hnc
    obtain ⟨sess, hs, hm, hmt⟩ := hInv.taskMon τ hτ hnc
    have hb : τ.sessionSid < s.nextSid := hInv.taskSidBound τ hτ
    have hne : ¬ (s.nextSid = τ.sessionSid) := by omega
    refine ⟨sess, ?_, hm, hmt⟩
    simp only [lookupSession, alookup, if_neg hne]
    exact hs
  · intro p hp hm tid hmt
    simp only [List.mem_cons] at hp
    rcases hp with h1 | h1
    · rw [h1] at hmt
      simp [freshSession] at hmt
    · exact hInv.stoppedCancelled p h1 hm tid hmt

end WS

namespace WS

theorem inv_start_monitoring {s : Sys} (hInv : Inv s) (conn : Nat) (client_id : String) :
    Inv (start_monitoring s conn client_id) := by
  unfold start_monitoring
  split
  · exact hInv
  · rename_i sid sess hget
    obtain ⟨hreg, hsess⟩ := get_session_some hget
    have hmem : (sid, sess) ∈ s.store := alookup_mem hsess
    have hsidb : sid < s.nextSid := hInv.storeKeyBound (sid, sess) hmem
    have hisSome : (alookup s.store sid).isSome := by
      unfold lookupSession at hsess
      rw [hsess]
      rfl
    by_cases hmon : sess.monitoring = true
    · rw [if_pos hmon]
      exact inv_trace_ext hInv _
    · rw [if_neg hmon]
      refine ⟨hInv.connsSidUnique, hInv.connSidBound, ?_, ?_, ?_, ?_, ?_,
        hInv.regConn, ?_, ?_, ?_⟩
      · intro p hp
        rcases mem_updateStore hp with h1 | ⟨h1, _⟩
        · rw [h1]
          exact hsidb
        · exact hInv.storeKeyBound p h1
      · intro p hp q hq he
        rcases mem_updateStore hp with h1 | ⟨h1, h1n⟩ <;>
          rcases mem_updateStore hq with h2 | ⟨h2, h2n⟩
        · rw [h1, h2]
        · exfalso
          rw [h1] at he
          exact h2n he.symm
        · exfalso
          rw [h2] at he
          exact h1n he
        · exact hInv.storeKeysUnique p h1 q h2 he
      · intro τ hτ
        rcases List.mem_cons.mp hτ with h1 | h1
        · rw [h1]
          exact hsidb
        · exact hInv.taskSidBound τ h1
      · intro τ hτ
        rcases List.mem_cons.mp hτ with h1 | h1
        · rw [h1]
          simp
        · have := hInv.tidBound τ h1
          simp only
          omega
      · intro τ1 hτ1 τ2 hτ2 he
        rcases List.mem_cons.mp hτ1 with h1 | h1 <;>
          rcases List.mem_cons.mp hτ2 with h2 | h2
        · rw [h1, h2]
        · exfalso
          have := hInv.tidBound τ2 h2
          rw [h1] at he
          simp only at he
          omega
        · exfalso
          have := hInv.tidBound τ1 h1
          rw [h2] at he
          simp only at he
          omega
        · exact hInv.tidUnique τ1 h1 τ2 h2 he
      · intro p hp
        by_cases hps : p.2 = sid
        · rw [hps]
          rw [alookup_updateStore_self s.store sid _ hisSome]
          rfl
        · rw [alookup_updateStore_other s.store sid _ p.2 hps]
          exact hInv.regStore p hp
      · intro τ hτ hnc
        rcases List.mem_cons.mp hτ with h1 | h1
        · refine ⟨{ sess with monitoring := true, monitoring_task := some s.nextTid },
            ?_, rfl, ?_⟩
          · rw [h1]
            simp only [lookupSession]
            exact alookup_updateStore_self s.store sid _ hisSome
          · rw [h1]
        · obtain ⟨sess0, hs0, hm0, hmt0⟩ := hInv.taskMon τ h1 hnc
          by_cases hts : τ.sessionSid = sid
          · exfalso
            rw [hts] at hs0
            unfold lookupSession at hs0 hsess
            rw [hsess] at hs0
            have : sess0 = sess := by
              cases hs0
              rfl
            rw [this] at hm0
            exact hmon hm0
          · refine ⟨sess0, ?_, hm0, hmt0⟩
            simp only [lookupSession]
            rw [alookup_updateStore_other s.store sid _ τ.sessionSid hts]
            exact hs0
      · intro p hp hm tid hmt
        rcases mem_updateStore hp with h1 | ⟨h1, _⟩
        · exfalso
          rw [h1] at hm
          simp at hm
        · exact hInv.stoppedCancelled p h1 hm tid hmt

theorem inv_stop_monitoring {s : Sys} (hInv : Inv s) (client_id : String) :
    Inv (stop_monitoring s client_id) := by
  unfold stop_monitoring
  split
  · exact hInv
  · rename_i sid sess hget
    obtain ⟨hreg, hsess⟩ := get_session_some hget
    have hmem : (sid, sess) ∈ s.store := alookup_mem hsess
    have hisSome : (alookup s.store sid).isSome := by
      unfold lookupSession at hsess
      rw [hsess]
      rfl
    cases hmt : sess.monitoring_task with
    | none =>
      simp only [hmt]
      unfold send_message
      simp only [hreg]
      refine ⟨hInv.connsSidUnique, hInv.connSidBound, ?_, ?_, hInv.taskSidBound,
        hInv.tidBound, hInv.tidUnique, hInv.regConn, ?_, ?_, ?_⟩
      · intro p hp
        rcases mem_updateStore hp with h1 | ⟨h1, _⟩
        · rw [h1]
          exact hInv.storeKeyBound (sid, sess) hmem
        · exact hInv.storeKeyBound p h1
      · intro p hp q hq he
        rcases mem_updateStore hp with h1 | ⟨h1, h1n⟩ <;>
          rcases mem_updateStore hq with h2 | ⟨h2, h2n⟩
        · rw [h1, h2]
        · exfalso
          rw [h1] at he
          exact h2n he.symm
        · exfalso
          rw [h2] at he
          exact h1n he
        · exact hInv.storeKeysUnique p h1 q h2 he
      · intro p hp
        by_cases hps : p.2 = sid
        · rw [hps, alookup_updateStore_self s.store sid _ hisSome]
          rfl
        · rw [alookup_updateStore_other s.store sid _ p.2 hps]
          exact hInv.regStore p hp
      · intro τ hτ hnc
        obtain ⟨sess0, hs0, hm0, hmt0⟩ := hInv.taskMon τ hτ hnc
        by_cases hts : τ.sessionSid = sid
        · exfalso
          rw [hts] at hs0
          unfold lookupSession at hs0 hsess
          rw [hsess] at hs0
          have he : sess0 = sess := by
            cases hs0
            rfl
          rw [he, hmt] at hmt0
          cases hmt0
        · refine ⟨sess0, ?_, hm0, hmt0⟩
          simp only [lookupSession]
          rw [alookup_updateStore_other s.store sid _ τ.sessionSid hts]
          exact hs0
      · intro p hp hm tid htid
        rcases mem_updateStore hp with h1 | ⟨h1, _⟩
        · exfalso
          rw [h1] at htid
          simp only at htid
          exact Option.noConfusion htid
        · exact hInv.stoppedCancelled p h1 hm tid htid
    | some tid0 =>
      simp only [hmt]
      unfold send_message
      simp only [hreg]
      refine ⟨hInv.connsSidUnique, hInv.connSidBound, ?_, ?_, hInv.taskSidBound,
        hInv.tidBound, hInv.tidUnique, hInv.regConn, ?_, ?_, ?_⟩
      · intro p hp
        rcases mem_updateStore hp with h1 | ⟨h1, _⟩
        · rw [h1]
          exact hInv.storeKeyBound (sid, sess) hmem
        · exact hInv.storeKeyBound p h1
      · intro p hp q hq he
        rcases mem_updateStore hp with h1 | ⟨h1, h1n⟩ <;>
          rcases mem_updateStore hq with h2 | ⟨h2, h2n⟩
        · rw [h1, h2]
        · exfalso
          rw [h1] at he
          exact h2n he.symm
        · exfalso
          rw [h2] at he
          exact h1n he
        · exact hInv.storeKeysUnique p h1 q h2 he
      · intro p hp
        by_cases hps : p.2 = sid
        · rw [hps, alookup_updateStore_self s.store sid _ hisSome]
          rfl
        · rw [alookup_updateStore_other s.store sid _ p.2 hps]
          exact hInv.regStore p hp
      · intro τ hτ hnc
        have hnc0 : τ.tid ∉ s.cancelled := by
          intro hx
          exact hnc (List.mem_cons_of_mem _ hx)
        obtain ⟨sess0, hs0, hm0, hmt0⟩ := hInv.taskMon τ hτ hnc0
        by_cases hts : τ.sessionSid = sid
        · exfalso
          rw [hts] at hs0
          unfold lookupSession at hs0 hsess
          rw [hsess] at hs0
          have he : sess0 = sess := by
            cases hs0
            rfl
          rw [he, hmt] at hmt0
          have : τ.tid = tid0 := by
            cases hmt0
            rfl
          exact hnc (by rw [this]; exact List.mem_cons_self _ _)
        · refine ⟨sess0, ?_, hm0, hmt0⟩
          simp only [lookupSession]
          rw [alookup_updateStore_other s.store sid _ τ.sessionSid hts]
          exact hs0
      · intro p hp hm tid htid
        rcases mem_updateStore hp with h1 | ⟨h1, _⟩
        · rw [h1] at htid
          simp only at htid
          have he2 : tid0 = tid := Option.some.inj htid
          rw [← he2]
          exact List.mem_cons_self _ _
        · exact List.mem_cons_of_mem _ (hInv.stoppedCancelled p h1 hm tid htid)

theorem inv_camera_frame {s : Sys} (hInv : Inv s) (client_id : String)
    (payload : Option String) (tNow : Nat) :
    Inv (handle_camera_frame s client_id payload tNow) := by
  unfold handle_camera_frame
  split
  · exact hInv
  · rename_i sid sess hget
    obtain ⟨hreg, hsess⟩ := get_session_some hget
    have hmem : (sid, sess) ∈ s.store := alookup_mem hsess
    have hisSome : (alookup s.store sid).isSome := by
      unfold lookupSession at hsess
      rw [hsess]
      rfl
    refine ⟨hInv.connsSidUnique, hInv.connSidBound, ?_, ?_, hInv.taskSidBound,
      hInv.tidBound, hInv.tidUnique, hInv.regConn, ?_, ?_, ?_⟩
    · intro p hp
      rcases mem_updateStore hp with h1 | ⟨h1, _⟩
      · rw [h1]
        exact hInv.storeKeyBound (sid, sess) hmem
      · exact hInv.storeKeyBound p h1
    · intro p hp q hq he
      rcases mem_updateStore hp with h1 | ⟨h1, h1n⟩ <;>
        rcases mem_updateStore hq with h2 | ⟨h2, h2n⟩
      · rw [h1, h2]
      · exfalso
        rw [h1] at he
        exact h2n he.symm
      · exfalso
        rw [h2] at he
        exact h1n he
      · exact hInv.storeKeysUnique p h1 q h2 he
    · intro p hp
      by_cases hps : p.2 = sid
      · rw [hps, alookup_updateStore_self s.store sid _ hisSome]
        rfl
      · rw [alookup_updateStore_other s.store sid _ p.2 hps]
        exact hInv.regStore p hp
    · intro τ hτ hnc
      obtain ⟨sess0, hs0, hm0, hmt0⟩ := hInv.taskMon τ hτ hnc
      by_cases hts : τ.sessionSid = sid
      · have he : sess0 = sess := by
          rw [hts] at hs0
          unfold lookupSession at hs0 hsess
          rw [hsess] at hs0
          cases hs0
          rfl
        refine ⟨{ sess with last_frame := some payload, last_frame_time := tNow },
          ?_, ?_, ?_⟩
        · rw [hts]
          simp only [lookupSession]
          exact alookup_updateStore_self s.store sid _ hisSome
        · rw [← he] at *
          exact hm0
        · rw [← he] at *
          exact hmt0
      · refine ⟨sess0, ?_, hm0, hmt0⟩
        simp only [lookupSession]
        rw [alookup_updateStore_other s.store sid _ τ.sessionSid hts]
        exact hs0
    · intro p hp hm tid htid
      rcases mem_updateStore hp with h1 | ⟨h1, _⟩
      · have : sess.monitoring = false ∧ sess.monitoring_task = some tid := by
          rw [h1] at hm htid
          exact ⟨hm, htid⟩
        exact hInv.stoppedCancelled (sid, sess) hmem this.1 tid this.2
      · exact hInv.stoppedCancelled p h1 hm tid htid

end WS

namespace WS

theorem inv_disconnect {s : Sys} (hInv : Inv s) (client_id : String) :
    Inv (disconnect s client_id) := by
  unfold disconnect
  split
  · exact hInv
  · rename_i sid hreg
    split
    · rename_i tid hti
      refine ⟨hInv.connsSidUnique, hInv.connSidBound, hInv.storeKeyBound,
        hInv.storeKeysUnique, hInv.taskSidBound, hInv.tidBound, hInv.tidUnique,
        ?_, ?_, ?_, ?_⟩
      · intro p hp
        exact hInv.regConn p (mem_dictRemove hp).1
      · intro p hp
        exact hInv.regStore p (mem_dictRemove hp).1
      · intro τ hτ hnc
        exact hInv.taskMon τ hτ (fun hx => hnc (List.mem_cons_of_mem _ hx))
      · intro p hp hm tid2 htid
        exact List.mem_cons_of_mem _ (hInv.stoppedCancelled p hp hm tid2 htid)
    · refine ⟨hInv.connsSidUnique, hInv.connSidBound, hInv.storeKeyBound,
        hInv.storeKeysUnique, hInv.taskSidBound, hInv.tidBound, hInv.tidUnique,
        ?_, ?_, hInv.taskMon, hInv.stoppedCancelled⟩
      · intro p hp
        exact hInv.regConn p (mem_dictRemove hp).1
      · intro p hp
        exact hInv.regStore p (mem_dictRemove hp).1

theorem inv_closeConn {s : Sys} (hInv : Inv s) (x : Nat)
    (hno : ∀ p ∈ s.active_connections, p.2 ≠ x) : Inv (closeConn s x) := by
  unfold closeConn
  have hsid : ∀ c : Conn,
      ((if c.sid = x then { c with isOpen := false } else c) : Conn).sid = c.sid := by
    intro c
    by_cases h : c.sid = x <;> simp [h]
  refine ⟨?_, ?_, hInv.storeKeyBound, hInv.storeKeysUnique, hInv.taskSidBound,
    hInv.tidBound, hInv.tidUnique, ?_, hInv.regStore, hInv.taskMon,
    hInv.stoppedCancelled⟩
  · intro c1 hc1 c2 hc2 he
    obtain ⟨a, ha, hae⟩ := List.mem_map.mp hc1
    obtain ⟨b, hb, hbe⟩ := List.mem_map.mp hc2
    have hab : a.sid = b.sid := by
      rw [← hae, ← hbe] at he
      rwa [hsid a, hsid b] at he
    have hab2 : a = b := hInv.connsSidUnique a ha b hb hab
    rw [← hae, ← hbe, hab2]
  · intro c hc
    obtain ⟨a, ha, hae⟩ := List.mem_map.mp hc
    have : c.sid = a.sid := by rw [← hae, hsid a]
    rw [this]
    exact hInv.connSidBound a ha
  · intro p hp
    obtain ⟨c0, hc0, hcs, hci, hco⟩ := hInv.regConn p hp
    refine ⟨c0, ?_, hcs, hci, hco⟩
    have hne : c0.sid ≠ x := by
      rw [hcs]
      exact hno p hp
    have hfix : (if c0.sid = x then { c0 with isOpen := false } else c0) = c0 :=
      if_neg hne
    rw [← hfix]
    exact List.mem_map_of_mem _ hc0

theorem disconnect_no_entry_to {s : Sys} (hInv : Inv s) (c : Conn) (hc : c ∈ s.conns) :
    ∀ p ∈ (disconnect s c.client_id).active_connections, p.2 ≠ c.sid := by
  intro p hp hps
  unfold disconnect at hp
  revert hp
  split
  · rename_i hnone
    intro hp
    obtain ⟨c0, hc0, hcs, hci, _⟩ := hInv.regConn p hp
    have he : c0 = c := hInv.connsSidUnique c0 hc0 c hc (by rw [hcs, hps])
    have : p.1 = c.client_id := by rw [← hci, he]
    exact alookup_none_not_mem hnone p hp this
  · rename_i sid hreg
    split
    · intro hp
      obtain ⟨hp1, hp2⟩ := mem_dictRemove hp
      obtain ⟨c0, hc0, hcs, hci, _⟩ := hInv.regConn p hp1
      have he : c0 = c := hInv.connsSidUnique c0 hc0 c hc (by rw [hcs, hps])
      exact hp2 (by rw [← hci, he])
    · intro hp
      obtain ⟨hp1, hp2⟩ := mem_dictRemove hp
      obtain ⟨c0, hc0, hcs, hci, _⟩ := hInv.regConn p hp1
      have he : c0 = c := hInv.connsSidUnique c0 hc0 c hc (by rw [hcs, hps])
      exact hp2 (by rw [← hci, he])

theorem inv_endpoint_exit {s : Sys} (hInv : Inv s) (c : Conn) (hc : c ∈ s.conns)
    (r : ExitReason) : Inv (websocket_endpoint_exit s c.sid c.client_id r) := by
  have h1 : Inv (disconnect s c.client_id) := inv_disconnect hInv c.client_id
  have h2 := disconnect_no_entry_to hInv c hc
  have h3 : Inv (closeConn (disconnect s c.client_id) c.sid) := inv_closeConn h1 c.sid h2
  cases r with
  | transport_disconnect => exact h3
  | dispatch_error => exact h3

theorem inv_step {Image : Type} {env : MonitorEnv Image} {s s' : Sys}
    (hInv : Inv s) (h : Step env s s') : Inv s' := by
  cases h with
  | connect t => exact inv_connect hInv t
  | ping c hc hopen => exact inv_trace_ext hInv _
  | start_mon c hc hopen => exact inv_start_monitoring hInv c.sid c.client_id
  | stop_mon c hc hopen => exact inv_stop_monitoring hInv c.client_id
  | camera_frame c payload tNow hc hopen =>
    exact inv_camera_frame hInv c.client_id payload tNow
  | relay c msgs hc hopen => exact inv_trace_ext hInv _
  | unknown_msg c m hc hopen => exact inv_trace_ext hInv _
  | exit_loop c r hc hopen => exact inv_endpoint_exit hInv c hc r
  | tick_send τ sess payload img tNow hτ ha hs hm hf hd hde =>
    exact inv_trace_ext hInv _

theorem inv_steps {Image : Type} {env : MonitorEnv Image} {s s' : Sys}
    (hInv : Inv s) (h : Steps env s s') : Inv s' := by
  induction h with
  | refl => exact hInv
  | tail hst hstep ih => exact inv_step ih hstep

theorem inv_reachable {Image : Type} {env : MonitorEnv Image} {s : Sys}
    (h : Reachable env s) : Inv s :=
  inv_steps inv_init h

end WS

namespace WS

theorem disconnect_conns (s : Sys) (cid : String) : (disconnect s cid).conns = s.conns := by
  unfold disconnect
  split
  · rfl
  · split <;> rfl

theorem disconnect_trace (s : Sys) (cid : String) : (disconnect s cid).trace = s.trace := by
  unfold disconnect
  split
  · rfl
  · split <;> rfl

theorem endpoint_exit_conns (s : Sys) (x : Nat) (cid : String) (r : ExitReason) :
    (websocket_endpoint_exit s x cid r).conns =
      s.conns.map (fun c => if c.sid = x then { c with isOpen := false } else c) := by
  cases r <;>
    simp only [websocket_endpoint_exit, closeConn, disconnect_conns]

theorem endpoint_exit_trace (s : Sys) (x : Nat) (cid : String) (r : ExitReason) :
    (websocket_endpoint_exit s x cid r).trace = s.trace := by
  cases r <;>
    simp only [websocket_endpoint_exit, closeConn, disconnect_trace]

theorem endpoint_exit_reg (s : Sys) (x : Nat) (cid : String) (r : ExitReason) :
    (websocket_endpoint_exit s x cid r).active_connections =
      (disconnect s cid).active_connections := by
  cases r <;> rfl

theorem disconnect_reg_none (s : Sys) (cid : String) :
    alookup (disconnect s cid).active_connections cid = none := by
  unfold disconnect
  split
  · assumption
  · split <;> exact alookup_dictRemove_self _ _

theorem start_monitoring_conns (s : Sys) (conn : Nat) (cid : String) :
    (start_monitoring s conn cid).conns = s.conns := by
  unfold start_monitoring
  split
  · rfl
  · split <;> rfl

theorem stop_monitoring_conns (s : Sys) (cid : String) :
    (stop_monitoring s cid).conns = s.conns := by
  unfold stop_monitoring send_message
  split
  · rfl
  · split <;>
    · simp only []
      split <;> rfl

theorem camera_frame_conns (s : Sys) (cid : String) (payload : Option String) (tNow : Nat) :
    (handle_camera_frame s cid payload tNow).conns = s.conns := by
  unfold handle_camera_frame
  split <;> rfl

theorem camera_frame_trace (s : Sys) (cid : String) (payload : Option String) (tNow : Nat) :
    (handle_camera_frame s cid payload tNow).trace = s.trace := by
  unfold handle_camera_frame
  split <;> rfl

/-- Once a connection has been closed, it stays closed under every
step (new connections always get a fresh identity). -/
theorem connClosed_step {Image : Type} {env : MonitorEnv Image} {s s' : Sys}
    (h : Step env s s') {x : Nat} (hcl : ConnClosed s x) : ConnClosed s' x := by
  obtain ⟨c0, hc0, hcs, hco⟩ := hcl
  cases h with
  | connect t => exact ⟨c0, List.mem_cons_of_mem _ hc0, hcs, hco⟩
  | ping c hc hopen => exact ⟨c0, hc0, hcs, hco⟩
  | start_mon c hc hopen =>
    refine ⟨c0, ?_, hcs, hco⟩
    rw [start_monitoring_conns]
    exact hc0
  | stop_mon c hc hopen =>
    refine ⟨c0, ?_, hcs, hco⟩
    rw [stop_monitoring_conns]
    exact hc0
  | camera_frame c payload tNow hc hopen =>
    refine ⟨c0, ?_, hcs, hco⟩
    rw [camera_frame_conns]
    exact hc0
  | relay c msgs hc hopen => exact ⟨c0, hc0, hcs, hco⟩
  | unknown_msg c m hc hopen => exact ⟨c0, hc0, hcs, hco⟩
  | exit_loop c r hc hopen =>
    rw [ConnClosed, endpoint_exit_conns]
    refine ⟨if c0.sid = c.sid then { c0 with isOpen := false } else c0,
      List.mem_map_of_mem _ hc0, ?_, ?_⟩
    · by_cases hxx : c0.sid = c.sid
      · rw [if_pos hxx]
        exact hcs
      · rw [if_neg hxx]
        exact hcs
    · by_cases hxx : c0.sid = c.sid
      · rw [if_pos hxx]
      · rw [if_neg hxx]
        exact hco
  | tick_send τ sess payload img tNow hτ ha hs hm hf hd hde =>
    exact ⟨c0, hc0, hcs, hco⟩

theorem connClosed_steps {Image : Type} {env : MonitorEnv Image} {s s' : Sys}
    (h : Steps env s s') {x : Nat} (hcl : ConnClosed s x) : ConnClosed s' x := by
  induction h with
  | refl => exact hcl
  | tail hst hstep ih => exact connClosed_step hstep ih

theorem not_connOpen_of_closed {s : Sys} (hInv : Inv s) {x : Nat}
    (hcl : ConnClosed s x) : ¬ ConnOpen s x := by
  obtain ⟨c0, hc0, hcs0, hco0⟩ := hcl
  rintro ⟨c1, hc1, hcs1, hco1⟩
  have he : c0 = c1 := hInv.connsSidUnique c0 hc0 c1 hc1 (by rw [hcs0, hcs1])
  rw [he, hco1] at hco0
  cases hco0

/-- Every message appended by a step is delivered to a connection that
is open before the step. -/
theorem step_new_trace {Image : Type} {env : MonitorEnv Image} {s s' : Sys}
    (hInv : Inv s) (h : Step env s s') :
    ∃ es, s'.trace = s.trace ++ es ∧ ∀ e ∈ es, ConnOpen s e.dest := by
  cases h with
  | connect t =>
    refine ⟨[], by simp [connectStep], by simp⟩
  | ping c hc hopen =>
    refine ⟨[⟨c.sid, none, OutMsg.pong⟩], by simp, ?_⟩
    intro e he
    rcases List.mem_singleton.mp he with rfl
    exact ⟨c, hc, rfl, hopen⟩
  | start_mon c hc hopen =>
    unfold start_monitoring
    split
    · exact ⟨[], by simp, by simp⟩
    · rename_i sid sess hget
      split
      · refine ⟨[⟨c.sid, none,
          OutMsg.monitoring_status true "Monitoring already active"⟩], by simp, ?_⟩
        intro e he
        rcases List.mem_singleton.mp he with rfl
        exact ⟨c, hc, rfl, hopen⟩
      · refine ⟨[⟨c.sid, none,
          OutMsg.monitoring_status true "Continuous vision monitoring started"⟩],
          by simp, ?_⟩
        intro e he
        rcases List.mem_singleton.mp he with rfl
        exact ⟨c, hc, rfl, hopen⟩
  | stop_mon c hc hopen =>
    unfold stop_monitoring send_message
    split
    · exact ⟨[], by simp, by simp⟩
    · rename_i sid sess hget
      obtain ⟨hreg, hsess⟩ := get_session_some hget
      have hopenSid : ConnOpen s sid := by
        obtain ⟨c1, hc1, hcs, hci, hco⟩ := hInv.regConn _ (alookup_mem hreg)
        exact ⟨c1, hc1, hcs, hco⟩
      split <;>
      · simp only [hreg]
        refine ⟨[⟨sid, none,
          OutMsg.monitoring_status false "Continuous vision monitoring stopped"⟩],
          by simp, ?_⟩
        intro e he
        rcases List.mem_singleton.mp he with rfl
        exact hopenSid
  | camera_frame c payload tNow hc hopen =>
    refine ⟨[], by rw [camera_frame_trace, List.append_nil], by simp⟩
  | relay c msgs hc hopen =>
    refine ⟨msgs.map (fun m => ⟨c.sid, none, m⟩), by simp, ?_⟩
    intro e he
    obtain ⟨m, _, hme⟩ := List.mem_map.mp he
    rw [← hme]
    exact ⟨c, hc, rfl, hopen⟩
  | unknown_msg c m hc hopen =>
    refine ⟨[⟨c.sid, none, OutMsg.error ("Unknown message type: " ++ m)⟩], by simp, ?_⟩
    intro e he
    rcases List.mem_singleton.mp he with rfl
    exact ⟨c, hc, rfl, hopen⟩
  | exit_loop c r hc hopen =>
    refine ⟨[], by rw [endpoint_exit_trace, List.append_nil], by simp⟩
  | tick_send τ sess payload img tNow hτ ha hs hm hf hd hde =>
    refine ⟨[⟨τ.dest, some τ.tid, OutMsg.vision_update (env.observe img) tNow⟩],
      by simp, ?_⟩
    intro e he
    rcases List.mem_singleton.mp he with rfl
    exact hde

/-- After a connection is closed, no step sequence ever delivers
another message to it. -/
theorem no_sends_to_closed {Image : Type} {env : MonitorEnv Image} {s s' : Sys}
    (hInv : Inv s) (h : Steps env s s') {x : Nat} (hcl : ConnClosed s x) :
    ∃ es, s'.trace = s.trace ++ es ∧ ∀ e ∈ es, e.dest ≠ x := by
  induction h with
  | refl => exact ⟨[], by simp, by simp⟩
  | tail hst hstep ih =>
    obtain ⟨es, he, hne⟩ := ih
    rename_i t u
    have hInvT : Inv t := inv_steps hInv hst
    have hclT : ConnClosed t x := connClosed_steps hst hcl
    obtain ⟨es2, he2, hopen2⟩ := step_new_trace hInvT hstep
    refine ⟨es ++ es2, by rw [he2, he, List.append_assoc], ?_⟩
    intro e hme
    rcases List.mem_append.mp hme with h1 | h1
    · exact hne e h1
    · intro hx
      apply not_connOpen_of_closed hInvT hclT
      rw [← hx]
      exact hopen2 e h1

end WS

namespace WS

theorem get_session_eq {s : Sys} {client_id : String} {sid : Nat} {sess : Session}
    (hreg : alookup s.active_connections client_id = some sid)
    (hsess : lookupSession s sid = some sess) :
    get_session s client_id = some (sid, sess) := by
  unfold get_session
  rw [hreg]
  simp only []
  rw [hsess]

/-- Fixed environment used to instantiate the transition system at
concrete states: every payload decodes, the Responder always answers
the same observation. -/
def wEnv : MonitorEnv Unit :=
  { decodeImage := fun _ => some (), observe := fun _ => "obs" }

end WS

/-- C2: whenever the Dispatcher loop of a connection terminates — for
either exit reason — Registry disconnect runs for its client id: the
registry entry is gone, the registered session's monitoring task (if
any) is cancelled, the connection is closed, and no later step of the
system ever delivers another message (in particular no `vision_update`)
to that connection. -/
theorem dispatcher_teardown {Image : Type} (env : WS.MonitorEnv Image) (s : WS.Sys)
    (hreach : WS.Reachable env s) (c : WS.Conn) (hc : c ∈ s.conns)
    (hopen : c.isOpen = true) (r : WS.ExitReason) :
    alookup (WS.websocket_endpoint_exit s c.sid c.client_id r).active_connections
        c.client_id = none ∧
    (∀ sid sess tid, alookup s.active_connections c.client_id = some sid →
      WS.lookupSession s sid = some sess → sess.monitoring_task = some tid →
      tid ∈ (WS.websocket_endpoint_exit s c.sid c.client_id r).cancelled) ∧
    WS.ConnClosed (WS.websocket_endpoint_exit s c.sid c.client_id r) c.sid ∧
    (∀ s', WS.Steps env (WS.websocket_endpoint_exit s c.sid c.client_id r) s' →
      ∃ es, s'.trace = (WS.websocket_endpoint_exit s c.sid c.client_id r).trace ++ es ∧
        ∀ e ∈ es, e.dest ≠ c.sid) := by
  have hInv : WS.Inv s := WS.inv_reachable hreach
  have hclosed : WS.ConnClosed (WS.websocket_endpoint_exit s c.sid c.client_id r) c.sid := by
    rw [WS.ConnClosed, WS.endpoint_exit_conns]
    refine ⟨{ c with isOpen := false }, ?_, rfl, rfl⟩
    have hfix : ({ c with isOpen := false } : WS.Conn) =
        if c.sid = c.sid then { c with isOpen := false } else c := by
      rw [if_pos rfl]
    rw [hfix]
    exact List.mem_map_of_mem _ hc
  refine ⟨?_, ?_, hclosed, ?_⟩
  · rw [WS.endpoint_exit_reg]
    exact WS.disconnect_reg_none s c.client_id
  · intro sid sess tid hreg hsess hmt
    have hcanc : (WS.websocket_endpoint_exit s c.sid c.client_id r).cancelled
        = (WS.disconnect s c.client_id).cancelled := by
      cases r <;> rfl
    rw [hcanc]
    unfold WS.disconnect
    simp only [hreg]
    simp only [hsess, Option.some_bind, hmt]
    exact List.mem_cons_self _ _
  · intro s' hsteps
    have hInv2 : WS.Inv (WS.websocket_endpoint_exit s c.sid c.client_id r) :=
      WS.inv_endpoint_exit hInv c hc r
    exact WS.no_sends_to_closed hInv2 hsteps hclosed

/-- C2 witness scenario: one client connects at millisecond 1 and starts
monitoring. -/
def c2Conn : WS.Conn := ⟨0, WS.clientIdOf 1, true⟩

/-- The server state after that connect and start_monitoring. -/
def c2State : WS.Sys :=
  WS.start_monitoring (WS.connectStep WS.initSys 1) 0 (WS.clientIdOf 1)

theorem dispatcher_teardown_witness :
    alookup (WS.websocket_endpoint_exit c2State 0 (WS.clientIdOf 1)
        WS.ExitReason.transport_disconnect).active_connections (WS.clientIdOf 1) = none ∧
    (0 : Nat) ∈ (WS.websocket_endpoint_exit c2State 0 (WS.clientIdOf 1)
        WS.ExitReason.transport_disconnect).cancelled := by
  have hreach : WS.Reachable WS.wEnv c2State :=
    WS.Steps.tail (WS.Steps.tail (WS.Steps.refl _) (WS.Step.connect WS.initSys 1))
      (WS.Step.start_mon _ c2Conn (by decide) (by decide))
  have h := dispatcher_teardown WS.wEnv c2State hreach c2Conn (by decide) (by decide)
    WS.ExitReason.transport_disconnect
  refine ⟨h.1, ?_⟩
  exact h.2.1 0
    { monitoring := true, last_frame := none, last_frame_time := 0,
      monitoring_task := some 0 } 0 (by decide) (by decide) rfl

namespace WS

theorem updateStore_id {store : List (Nat × Session)} {sid : Nat} {sess : Session}
    (h : ∀ q ∈ store, q.1 = sid → q.2 = sess) :
    updateStore store sid sess = store := by
  induction store with
  | nil => rfl
  | cons p ps ih =>
    by_cases hp : p.1 = sid
    · rw [updateStore, if_pos hp]
      have hv : p.2 = sess := h p (List.mem_cons_self _ _) hp
      have hpe : p = (sid, sess) := by
        cases p
        simp_all
      rw [← hpe, ih (fun q hq hqs => h q (List.mem_cons_of_mem _ hq) hqs)]
    · rw [updateStore, if_neg hp]
      rw [ih (fun q hq hqs => h q (List.mem_cons_of_mem _ hq) hqs)]

end WS

/-- C4: for every reachable state, at most one monitor task per session
dict is outstanding (created and not cancelled); and receiving
`start_monitoring` for a session that is already monitoring only sends
`monitoring_status{active:true}` — no task is created, no state other
than the trace changes, in any number of start/stop cycles. -/
theorem monitoring_task_unique {Image : Type} (env : WS.MonitorEnv Image) (s : WS.Sys)
    (hreach : WS.Reachable env s) :
    (∀ τ1 τ2 : WS.MonTask, WS.outstanding s τ1 → WS.outstanding s τ2 →
      τ1.sessionSid = τ2.sessionSid → τ1 = τ2) ∧
    (∀ conn client_id sid sess,
      alookup s.active_connections client_id = some sid →
      WS.lookupSession s sid = some sess → sess.monitoring = true →
      WS.start_monitoring s conn client_id =
        { s with trace := s.trace ++
            [⟨conn, none, OutMsg.monitoring_status true "Monitoring already active"⟩] }) := by
  have hInv : WS.Inv s := WS.inv_reachable hreach
  constructor
  · rintro τ1 τ2 ⟨h1m, h1c⟩ ⟨h2m, h2c⟩ hsid
    obtain ⟨sess1, hs1, _, hmt1⟩ := hInv.taskMon τ1 h1m h1c
    obtain ⟨sess2, hs2, _, hmt2⟩ := hInv.taskMon τ2 h2m h2c
    rw [hsid, hs2] at hs1
    have hse : sess2 = sess1 := Option.some.inj hs1
    rw [hse, hmt1] at hmt2
    have htid : τ1.tid = τ2.tid := Option.some.inj hmt2
    exact hInv.tidUnique τ1 h1m τ2 h2m htid
  · intro conn client_id sid sess hreg hsess hmon
    unfold WS.start_monitoring
    rw [WS.get_session_eq hreg hsess]
    simp only []
    rw [if_pos hmon]

/-- C4 witness scenario: connect at millisecond 2, then start
monitoring twice. -/
def c4Conn : WS.Conn := ⟨0, WS.clientIdOf 2, true⟩

/-- The state after the first `start_monitoring`. -/
def c4State : WS.Sys :=
  WS.start_monitoring (WS.connectStep WS.initSys 2) 0 (WS.clientIdOf 2)

theorem monitoring_task_unique_witness :
    WS.start_monitoring c4State 0 (WS.clientIdOf 2) =
      { c4State with trace := c4State.trace ++
          [⟨0, none, OutMsg.monitoring_status true "Monitoring already active"⟩] } := by
  have hreach : WS.Reachable WS.wEnv c4State :=
    WS.Steps.tail (WS.Steps.tail (WS.Steps.refl _) (WS.Step.connect WS.initSys 2))
      (WS.Step.start_mon _ c4Conn (by decide) (by decide))
  have h := monitoring_task_unique WS.wEnv c4State hreach
  exact h.2 0 (WS.clientIdOf 2) 0
    { monitoring := true, last_frame := none, last_frame_time := 0,
      monitoring_task := some 0 } (by decide) (by decide) rfl

/-- C7: `stop_monitoring` for a registered session: when the session is
not monitoring it is a harmless no-op — every component of the server
state except the trace is unchanged (the cancelled set is unchanged as
a set), and `monitoring_status{active:false}` is still sent, with no
error; when the session is monitoring with task handle `tid`, the flag
is cleared, `tid` is cancelled, and the same status message is sent. -/
theorem stop_monitoring_spec {Image : Type} (env : WS.MonitorEnv Image) (s : WS.Sys)
    (hreach : WS.Reachable env s) (client_id : String) (sid : Nat) (sess : WS.Session)
    (hreg : alookup s.active_connections client_id = some sid)
    (hsess : WS.lookupSession s sid = some sess) :
    (sess.monitoring = false →
      (WS.stop_monitoring s client_id).store = s.store ∧
      (WS.stop_monitoring s client_id).active_connections = s.active_connections ∧
      (WS.stop_monitoring s client_id).conns = s.conns ∧
      (WS.stop_monitoring s client_id).tasks = s.tasks ∧
      (WS.stop_monitoring s client_id).nextSid = s.nextSid ∧
      (WS.stop_monitoring s client_id).nextTid = s.nextTid ∧
      (∀ t : Nat, t ∈ (WS.stop_monitoring s client_id).cancelled ↔ t ∈ s.cancelled) ∧
      (WS.stop_monitoring s client_id).trace = s.trace ++
        [⟨sid, none, OutMsg.monitoring_status false "Continuous vision monitoring stopped"⟩]) ∧
    (sess.monitoring = true → ∀ tid, sess.monitoring_task = some tid →
      WS.stop_monitoring s client_id =
        { s with
          store := (WS.updateStore s.store sid { sess with monitoring := false }),
          cancelled := tid :: s.cancelled,
          trace := s.trace ++
            [⟨sid, none,
              OutMsg.monitoring_status false "Continuous vision monitoring stopped"⟩] }) := by
  have hInv : WS.Inv s := WS.inv_reachable hreach
  have hmem : (sid, sess) ∈ s.store := alookup_mem hsess
  constructor
  · intro hmon
    have hsessF : ({ sess with monitoring := false } : WS.Session) = sess := by
      cases sess
      simp_all
    have hstore : WS.updateStore s.store sid { sess with monitoring := false } = s.store := by
      rw [hsessF]
      exact WS.updateStore_id (fun q hq hqs => hInv.storeKeysUnique q hq (sid, sess) hmem hqs)
    cases hmt : sess.monitoring_task with
    | none =>
      have heq : WS.stop_monitoring s client_id =
          { s with
            store := (WS.updateStore s.store sid { sess with monitoring := false }),
            trace := s.trace ++
              [⟨sid, none,
                OutMsg.monitoring_status false "Continuous vision monitoring stopped"⟩] } := by
        unfold WS.stop_monitoring
        rw [WS.get_session_eq hreg hsess]
        simp only []
        rw [hmt]
        unfold WS.send_message
        simp only [hreg]
      rw [heq, hstore]
      exact ⟨rfl, rfl, rfl, rfl, rfl, rfl, fun t => Iff.rfl, rfl⟩
    | some tid0 =>
      have htc : tid0 ∈ s.cancelled :=
        hInv.stoppedCancelled (sid, sess) hmem hmon tid0 hmt
      have heq : WS.stop_monitoring s client_id =
          { s with
            store := (WS.updateStore s.store sid { sess with monitoring := false }),
            cancelled := tid0 :: s.cancelled,
            trace := s.trace ++
              [⟨sid, none,
                OutMsg.monitoring_status false "Continuous vision monitoring stopped"⟩] } := by
        unfold WS.stop_monitoring
        rw [WS.get_session_eq hreg hsess]
        simp only []
        rw [hmt]
        unfold WS.send_message
        simp only [hreg]
      rw [heq, hstore]
      refine ⟨rfl, rfl, rfl, rfl, rfl, rfl, ?_, rfl⟩
      intro t
      constructor
      · intro ht
        rcases List.mem_cons.mp ht with h1 | h1
        · rw [h1]; exact htc
        · exact h1
      · intro ht
        exact List.mem_cons_of_mem _ ht
  · intro hmon tid hmt
    unfold WS.stop_monitoring
    rw [WS.get_session_eq hreg hsess]
    simp only []
    rw [hmt]
    unfold WS.send_message
    simp only [hreg]

/-- C7 witness scenario: a freshly connected session (monitoring off,
no task handle) receives `stop_monitoring`. -/
def c7State : WS.Sys := WS.connectStep WS.initSys 3

theorem stop_monitoring_spec_witness :
    (WS.stop_monitoring c7State (WS.clientIdOf 3)).store = c7State.store ∧
    (WS.stop_monitoring c7State (WS.clientIdOf 3)).tasks = c7State.tasks ∧
    (WS.stop_monitoring c7State (WS.clientIdOf 3)).trace = c7State.trace ++
      [⟨0, none, OutMsg.monitoring_status false "Continuous vision monitoring stopped"⟩] := by
  have hreach : WS.Reachable WS.wEnv c7State :=
    WS.Steps.tail (WS.Steps.refl _) (WS.Step.connect WS.initSys 3)
  have h := stop_monitoring_spec WS.wEnv c7State hreach (WS.clientIdOf 3) 0
    WS.freshSession (by decide) (by decide)
  have h1 := h.1 rfl
  exact ⟨h1.1, h1.2.2.2.1, h1.2.2.2.2.2.2.2⟩

/-! ### Injectivity of the decimal client-id rendering -/

/-- Decimal digit value; left inverse of `Nat.digitChar` below 10. -/
def digitVal (c : Char) : Nat :=
  if c = '0' then 0 else if c = '1' then 1 else if c = '2' then 2 else
  if c = '3' then 3 else if c = '4' then 4 else if c = '5' then 5 else
  if c = '6' then 6 else if c = '7' then 7 else if c = '8' then 8 else
  if c = '9' then 9 else 10

/-- Value of a most-significant-first decimal digit string. -/
def digitsVal : List Char → Nat
  | [] => 0
  | c :: cs => digitVal c * 10 ^ cs.length + digitsVal cs

theorem digitVal_digitChar (n : Nat) (h : n < 10) :
    digitVal (Nat.digitChar n) = n := by
  interval_cases n <;> decide

theorem toDigitsCore_val (fuel : Nat) :
    ∀ n ds, n < fuel →
      digitsVal (Nat.toDigitsCore 10 fuel n ds) = n * 10 ^ ds.length + digitsVal ds := by
  induction fuel with
  | zero =>
    intro n ds h
    omega
  | succ fuel ih =>
    intro n ds h
    rw [Nat.toDigitsCore]
    by_cases h0 : n / 10 = 0
    · rw [if_pos h0]
      have hn : n < 10 := by omega
      rw [digitsVal, digitVal_digitChar (n % 10) (by omega)]
      have hmod : n % 10 = n := Nat.mod_eq_of_lt hn
      rw [hmod]
    · rw [if_neg h0]
      have h10 : 10 ≤ n := by
        by_contra hlt
        push_neg at hlt
        exact h0 (Nat.div_eq_of_lt hlt)
      have hlt : n / 10 < fuel := by
        have hd : n / 10 < n := Nat.div_lt_self (by omega) (by omega)
        omega
      rw [ih (n / 10) (Nat.digitChar (n % 10) :: ds) hlt]
      rw [digitsVal, digitVal_digitChar (n % 10) (by omega)]
      simp only [List.length_cons]
      have hpow : (10 : Nat) ^ (ds.length + 1) = 10 ^ ds.length * 10 := by
        rw [pow_succ]
      rw [hpow]
      have key : n / 10 * (10 ^ ds.length * 10) + n % 10 * 10 ^ ds.length
          = n * 10 ^ ds.length := by
        have h1 : n / 10 * 10 + n % 10 = n := by omega
        calc n / 10 * (10 ^ ds.length * 10) + n % 10 * 10 ^ ds.length
            = (n / 10 * 10 + n % 10) * 10 ^ ds.length := by ring
          _ = n * 10 ^ ds.length := by rw [h1]
      omega

theorem digitsVal_toDigits (n : Nat) : digitsVal (Nat.toDigits 10 n) = n := by
  rw [Nat.toDigits, toDigitsCore_val (n + 1) n [] (Nat.lt_succ_self n)]
  simp [digitsVal]

theorem natRepr_inj {a b : Nat} (h : Nat.repr a = Nat.repr b) : a = b := by
  have hd : Nat.toDigits 10 a = Nat.toDigits 10 b := congrArg String.data h
  calc a = digitsVal (Nat.toDigits 10 a) := (digitsVal_toDigits a).symm
    _ = digitsVal (Nat.toDigits 10 b) := by rw [hd]
    _ = b := digitsVal_toDigits b

theorem clientIdOf_inj {t1 t2 : Nat} (h : WS.clientIdOf t1 = WS.clientIdOf t2) :
    t1 = t2 := by
  unfold WS.clientIdOf at h
  have hdata : ("client_" ++ toString t1).data = ("client_" ++ toString t2).data := by
    rw [h]
  rw [String.data_append, String.data_append] at hdata
  have hts : (toString t1 : String).data = (toString t2 : String).data :=
    List.append_cancel_left hdata
  exact natRepr_inj (String.ext hts)

/-- C3 counterexample: two clients accepted in the same millisecond
(time value 5) yield two distinct live connections carrying the same
`client_id`, and the registry retains only one entry (the second
connect overwrote the first). -/
theorem client_id_collision :
    (⟨0, WS.clientIdOf 5, true⟩ : WS.Conn)
        ∈ (WS.connectStep (WS.connectStep WS.initSys 5) 5).conns ∧
    (⟨1, WS.clientIdOf 5, true⟩ : WS.Conn)
        ∈ (WS.connectStep (WS.connectStep WS.initSys 5) 5).conns ∧
    (⟨0, WS.clientIdOf 5, true⟩ : WS.Conn) ≠ (⟨1, WS.clientIdOf 5, true⟩ : WS.Conn) ∧
    (⟨0, WS.clientIdOf 5, true⟩ : WS.Conn).client_id
      = (⟨1, WS.clientIdOf 5, true⟩ : WS.Conn).client_id ∧
    (WS.connectStep (WS.connectStep WS.initSys 5) 5).active_connections.length = 1 := by
  refine ⟨by decide, by decide, by decide, rfl, by decide⟩

/-- C3 amended: a session's id is a pure function of its connect-time
millisecond clock value, so two sessions accepted at distinct
milliseconds always receive distinct ids; and no step of the server ever
changes the `sid` or `client_id` of an existing connection (an id is
immutable for the connection's lifetime).  Uniqueness fails only for
connects within one millisecond, as the counterexample shows. -/
theorem client_id_unique_distinct_times {Image : Type} (env : WS.MonitorEnv Image) :
    (∀ t1 t2 : Nat, t1 ≠ t2 → WS.clientIdOf t1 ≠ WS.clientIdOf t2) ∧
    (∀ s s' : WS.Sys, WS.Step env s s' → ∀ c ∈ s.conns,
      ∃ c' ∈ s'.conns, c'.sid = c.sid ∧ c'.client_id = c.client_id) := by
  constructor
  · intro t1 t2 hne he
    exact hne (clientIdOf_inj he)
  · intro s s' hstep c0 hc0
    cases hstep with
    | connect t => exact ⟨c0, List.mem_cons_of_mem _ hc0, rfl, rfl⟩
    | ping c hc hopen => exact ⟨c0, hc0, rfl, rfl⟩
    | start_mon c hc hopen =>
      refine ⟨c0, ?_, rfl, rfl⟩
      rw [WS.start_monitoring_conns]
      exact hc0
    | stop_mon c hc hopen =>
      refine ⟨c0, ?_, rfl, rfl⟩
      rw [WS.stop_monitoring_conns]
      exact hc0
    | camera_frame c payload tNow hc hopen =>
      refine ⟨c0, ?_, rfl, rfl⟩
      rw [WS.camera_frame_conns]
      exact hc0
    | relay c msgs hc hopen => exact ⟨c0, hc0, rfl, rfl⟩
    | unknown_msg c m hc hopen => exact ⟨c0, hc0, rfl, rfl⟩
    | exit_loop c r hc hopen =>
      rw [WS.endpoint_exit_conns]
      refine ⟨if c0.sid = c.sid then { c0 with isOpen := false } else c0,
        List.mem_map_of_mem _ hc0, ?_, ?_⟩
      · by_cases hxx : c0.sid = c.sid
        · rw [if_pos hxx]
        · rw [if_neg hxx]
      · by_cases hxx : c0.sid = c.sid
        · rw [if_pos hxx]
        · rw [if_neg hxx]
    | tick_send τ sess payload img tNow hτ ha hs hm hf hd hde =>
      exact ⟨c0, hc0, rfl, rfl⟩

theorem client_id_unique_distinct_times_witness :
    WS.clientIdOf 5 ≠ WS.clientIdOf 6 ∧
    ∃ c' ∈ (WS.connectStep (WS.connectStep WS.initSys 5) 7).conns,
      c'.sid = 0 ∧ c'.client_id = WS.clientIdOf 5 := by
  have h := client_id_unique_distinct_times WS.wEnv
  refine ⟨h.1 5 6 (by decide), ?_⟩
  exact h.2 (WS.connectStep WS.initSys 5) _ (WS.Step.connect _ 7)
    ⟨0, WS.clientIdOf 5, true⟩ (by decide)

/-- C5 counterexample environment: payload "frame-ok" decodes, "xx"
does not (it is malformed). -/
def c5Env : WS.MonitorEnv Unit :=
  { decodeImage := fun p => if p = "frame-ok" then some () else none
    observe := fun _ => "obs" }

/-- C5 counterexample scenario: a connected session that already holds
the decodable frame "frame-ok" received at time 5. -/
def c5State : WS.Sys :=
  WS.handle_camera_frame (WS.connectStep WS.initSys 4) (WS.clientIdOf 4)
    (some "frame-ok") 5

/-- C5 counterexample: a `camera_frame` whose payload "xx" is
non-decodable still overwrites the session's `last_frame` (from
"frame-ok" to "xx") and `last_frame_time` (from 5 to 6) — the handler
stores the raw payload without decoding, contradicting the claim that a
malformed frame leaves them unchanged. -/
theorem camera_frame_malformed_counterexample :
    c5Env.decodeImage "xx" = none ∧
    (WS.lookupSession c5State 0).map WS.Session.last_frame
      = some (some (some "frame-ok")) ∧
    (WS.lookupSession (WS.handle_camera_frame c5State (WS.clientIdOf 4) (some "xx") 6)
        0).map WS.Session.last_frame = some (some (some "xx")) ∧
    (WS.lookupSession (WS.handle_camera_frame c5State (WS.clientIdOf 4) (some "xx") 6)
        0).map WS.Session.last_frame_time = some 6 := by
  refine ⟨rfl, by decide, by decide, by decide⟩

/-- C5 amended: processing any `camera_frame` — decodable or not —
never terminates the Dispatcher loop (the handler is total, sends no
message and touches nothing but the session dict), and it
unconditionally overwrites `last_frame` with the raw payload and
`last_frame_time` with the receive time; decode errors surface only in
the Monitoring Loop tick, which catches them. -/
theorem camera_frame_stores_raw (s : WS.Sys) (client_id : String) (sid : Nat)
    (sess : WS.Session) (payload : Option String) (tNow : Nat)
    (hreg : alookup s.active_connections client_id = some sid)
    (hsess : WS.lookupSession s sid = some sess) :
    WS.handle_camera_frame s client_id payload tNow =
      { s with store := (WS.updateStore s.store sid
          { sess with last_frame := some payload, last_frame_time := tNow }) } := by
  unfold WS.handle_camera_frame
  rw [WS.get_session_eq hreg hsess]

theorem camera_frame_stores_raw_witness :
    WS.handle_camera_frame (WS.connectStep WS.initSys 4) (WS.clientIdOf 4)
        (some "zz") 9 =
      { WS.connectStep WS.initSys 4 with
        store := (WS.updateStore (WS.connectStep WS.initSys 4).store 0
          { WS.freshSession with last_frame := some (some "zz"), last_frame_time := 9 }) } :=
  camera_frame_stores_raw (WS.connectStep WS.initSys 4) (WS.clientIdOf 4) 0
    WS.freshSession (some "zz") 9 (by decide) (by decide)

namespace EventLoop

/-- One primitive operation of a coroutine body: an awaited operation
(a suspension point, where the asyncio event loop may switch to another
task) or a plain synchronous call (the loop cannot switch until it
returns). -/
inductive PyOp where
  | awaitOp (name : String) : PyOp
  | syncCall (name : String) : PyOp
  deriving Repr, DecidableEq

/-- Whether executing the operation releases the event loop. -/
def suspends : PyOp → Bool
  | PyOp.awaitOp _ => true
  | PyOp.syncCall _ => false

/-- The Responder call of the Monitoring Loop tick
(`web_server.py` line 317): `self.llava_engine.generate_response(...)`
is written as a plain synchronous call — not awaited and not offloaded
to an executor. -/
def genOp : PyOp := PyOp.syncCall "llava_engine.generate_response"

/-- The body of one `monitor_loop` iteration with a frame present
(`web_server.py` lines 310-332), in program order: base64 decode and
`Image.open` (synchronous), the synchronous Responder call, then the
awaited `websocket.send_json` and the awaited `asyncio.sleep`. -/
def monitor_tick_ops : List PyOp :=
  [PyOp.syncCall "base64.b64decode",
   PyOp.syncCall "Image.open",
   genOp,
   PyOp.awaitOp "websocket.send_json",
   PyOp.awaitOp "asyncio.sleep"]

/-- A coroutine with its remaining operations. -/
structure CoTask where
  tid : Nat
  ops : List PyOp
  deriving Repr, DecidableEq

/-- The single-threaded asyncio event loop: all tasks with their
remaining operations, the task currently holding the loop (`none` at a
suspension point), and the operations executed so far in order. -/
structure Loop where
  tasks : List CoTask
  running : Option Nat
  executed : List (Nat × PyOp)
  deriving Repr, DecidableEq

/-- Execute the next operation `op` of task `t`: the operation is
recorded, the task's remaining list shrinks, and the loop is released
only if the operation suspends. -/
def runTask (l : Loop) (t : CoTask) (op : PyOp) (rest : List PyOp) : Loop :=
  { tasks := (l.tasks.map fun u => if u.tid = t.tid then { u with ops := rest } else u)
    running := if suspends op then none else some t.tid
    executed := l.executed ++ [(t.tid, op)] }

/-- Cooperative single-threaded scheduling: a task may execute its next
operation only if it already holds the loop or the loop is free. -/
inductive LStep : Loop → Loop → Prop where
  | exec (l : Loop) (t : CoTask) (op : PyOp) (rest : List PyOp)
      (ht : t ∈ l.tasks) (hops : t.ops = op :: rest)
      (hrun : l.running = none ∨ l.running = some t.tid) :
      LStep l (runTask l t op rest)

/-- Finite schedules. -/
inductive LSteps : Loop → Loop → Prop where
  | refl (l : Loop) : LSteps l l
  | tail {l t u : Loop} : LSteps l t → LStep t u → LSteps l u

/-- Session A's monitor tick (task 0) has just resumed and holds the
loop, while session B's dispatcher (task 1) has a pending `ping` to
process. -/
def blockedLoop : Loop :=
  { tasks := [⟨0, monitor_tick_ops⟩, ⟨1, [PyOp.syncCall "dispatch B ping"]⟩]
    running := some 0
    executed := [] }

/-- `blockedLoop` after task 0 executed the base64 decode. -/
def blockedLoop1 : Loop :=
  { tasks := [⟨0, [PyOp.syncCall "Image.open", genOp,
        PyOp.awaitOp "websocket.send_json", PyOp.awaitOp "asyncio.sleep"]⟩,
      ⟨1, [PyOp.syncCall "dispatch B ping"]⟩]
    running := some 0
    executed := [(0, PyOp.syncCall "base64.b64decode")] }

/-- `blockedLoop1` after task 0 executed `Image.open`. -/
def blockedLoop2 : Loop :=
  { tasks := [⟨0, [genOp, PyOp.awaitOp "websocket.send_json",
        PyOp.awaitOp "asyncio.sleep"]⟩,
      ⟨1, [PyOp.syncCall "dispatch B ping"]⟩]
    running := some 0
    executed := [(0, PyOp.syncCall "base64.b64decode"), (0, PyOp.syncCall "Image.open")] }

theorem lstep_pres {l l' : Loop} (h : LStep l l')
    (hl : l = blockedLoop ∨ l = blockedLoop1 ∨ l = blockedLoop2 ∨
      (0, genOp) ∈ l.executed) :
    l' = blockedLoop1 ∨ l' = blockedLoop2 ∨ (0, genOp) ∈ l'.executed := by
  cases h with
  | exec t op rest ht hops hrun =>
    rcases hl with rfl | rfl | rfl | hmem
    · have htid : t.tid = 0 := by
        rcases hrun with h1 | h1
        · exact Option.noConfusion h1
        · exact (Option.some.inj h1).symm
      have ht2 : t = ⟨0, monitor_tick_ops⟩ := by
        simp only [blockedLoop, List.mem_cons] at ht
        rcases ht with h1 | h1 | h1
        · exact h1
        · rw [h1] at htid
          exact absurd htid (by decide)
        · simp at h1
      subst ht2
      simp only [monitor_tick_ops, List.cons.injEq] at hops
      obtain ⟨rfl, rfl⟩ := hops.symm
      left
      decide
    · have htid : t.tid = 0 := by
        rcases hrun with h1 | h1
        · exact Option.noConfusion h1
        · exact (Option.some.inj h1).symm
      have ht2 : t = ⟨0, [PyOp.syncCall "Image.open", genOp,
          PyOp.awaitOp "websocket.send_json", PyOp.awaitOp "asyncio.sleep"]⟩ := by
        simp only [blockedLoop1, List.mem_cons] at ht
        rcases ht with h1 | h1 | h1
        · exact h1
        · rw [h1] at htid
          exact absurd htid (by decide)
        · simp at h1
      subst ht2
      simp only [List.cons.injEq] at hops
      obtain ⟨rfl, rfl⟩ := hops.symm
      right
      left
      decide
    · have htid : t.tid = 0 := by
        rcases hrun with h1 | h1
        · exact Option.noConfusion h1
        · exact (Option.some.inj h1).symm
      have ht2 : t = ⟨0, [genOp, PyOp.awaitOp "websocket.send_json",
          PyOp.awaitOp "asyncio.sleep"]⟩ := by
        simp only [blockedLoop2, List.mem_cons] at ht
        rcases ht with h1 | h1 | h1
        · exact h1
        · rw [h1] at htid
          exact absurd htid (by decide)
        · simp at h1
      subst ht2
      simp only [List.cons.injEq] at hops
      obtain ⟨rfl, rfl⟩ := hops.symm
      right
      right
      simp [runTask]
    · right
      right
      simp only [runTask, List.mem_append]
      exact Or.inl hmem

theorem lsteps_blocked {l' : Loop} (h : LSteps blockedLoop l') :
    l' = blockedLoop ∨ l' = blockedLoop1 ∨ l' = blockedLoop2 ∨
      (0, genOp) ∈ l'.executed := by
  induction h with
  | refl => exact Or.inl rfl
  | tail hst hstep ih =>
    rcases lstep_pres hstep ih with h1 | h1 | h1
    · exact Or.inr (Or.inl h1)
    · exact Or.inr (Or.inr (Or.inl h1))
    · exact Or.inr (Or.inr (Or.inr h1))

end EventLoop

/-- C9: the Monitoring Loop tick makes its Responder call as a plain
synchronous (non-awaited) operation, so under asyncio's cooperative
single-threaded scheduling the call blocks the event loop: in every
possible schedule starting from session A's tick holding the loop with
session B's dispatcher work pending, B cannot execute anything until
A's `generate_response` call has completed — the call does not suspend,
contradicting the claim that collaborator calls never block other
sessions' Dispatcher or Monitoring loops. -/
theorem monitor_responder_call_blocks_event_loop :
    EventLoop.suspends EventLoop.genOp = false ∧
    EventLoop.genOp ∈ EventLoop.monitor_tick_ops ∧
    (∀ l', EventLoop.LSteps EventLoop.blockedLoop l' →
      ∀ op : EventLoop.PyOp, (1, op) ∈ l'.executed →
        (0, EventLoop.genOp) ∈ l'.executed) := by
  refine ⟨rfl, by decide, ?_⟩
  intro l' h op hB
  rcases EventLoop.lsteps_blocked h with rfl | rfl | rfl | h1
  · simp [EventLoop.blockedLoop] at hB
  · simp [EventLoop.blockedLoop1] at hB
  · simp [EventLoop.blockedLoop2] at hB
  · exact h1

namespace EventLoop

/-- `blockedLoop2` after task 0 executed the Responder call. -/
def blockedLoop3 : Loop :=
  { tasks := [⟨0, [PyOp.awaitOp "websocket.send_json", PyOp.awaitOp "asyncio.sleep"]⟩,
      ⟨1, [PyOp.syncCall "dispatch B ping"]⟩]
    running := some 0
    executed := [(0, PyOp.syncCall "base64.b64decode"), (0, PyOp.syncCall "Image.open"),
      (0, genOp)] }

/-- `blockedLoop3` after the awaited send released the loop. -/
def blockedLoop4 : Loop :=
  { tasks := [⟨0, [PyOp.awaitOp "asyncio.sleep"]⟩,
      ⟨1, [PyOp.syncCall "dispatch B ping"]⟩]
    running := none
    executed := [(0, PyOp.syncCall "base64.b64decode"), (0, PyOp.syncCall "Image.open"),
      (0, genOp), (0, PyOp.awaitOp "websocket.send_json")] }

/-- The first state in which session B's dispatcher has run: only after
the Responder call completed and the tick reached an awaited
operation. -/
def blockedRun : Loop :=
  { tasks := [⟨0, [PyOp.awaitOp "asyncio.sleep"]⟩, ⟨1, []⟩]
    running := some 1
    executed := [(0, PyOp.syncCall "base64.b64decode"), (0, PyOp.syncCall "Image.open"),
      (0, genOp), (0, PyOp.awaitOp "websocket.send_json"),
      (1, PyOp.syncCall "dispatch B ping")] }

theorem blockedRun_reached : LSteps blockedLoop blockedRun := by
  have s1 : LStep blockedLoop blockedLoop1 :=
    LStep.exec blockedLoop ⟨0, monitor_tick_ops⟩ (PyOp.syncCall "base64.b64decode")
      [PyOp.syncCall "Image.open", genOp, PyOp.awaitOp "websocket.send_json",
        PyOp.awaitOp "asyncio.sleep"] (by decide) (by decide) (Or.inr rfl)
  have s2 : LStep blockedLoop1 blockedLoop2 :=
    LStep.exec blockedLoop1 ⟨0, [PyOp.syncCall "Image.open", genOp,
        PyOp.awaitOp "websocket.send_json", PyOp.awaitOp "asyncio.sleep"]⟩
      (PyOp.syncCall "Image.open")
      [genOp, PyOp.awaitOp "websocket.send_json", PyOp.awaitOp "asyncio.sleep"]
      (by decide) (by decide) (Or.inr rfl)
  have s3 : LStep blockedLoop2 blockedLoop3 :=
    LStep.exec blockedLoop2 ⟨0, [genOp, PyOp.awaitOp "websocket.send_json",
        PyOp.awaitOp "asyncio.sleep"]⟩ genOp
      [PyOp.awaitOp "websocket.send_json", PyOp.awaitOp "asyncio.sleep"]
      (by decide) (by decide) (Or.inr rfl)
  have s4 : LStep blockedLoop3 blockedLoop4 :=
    LStep.exec blockedLoop3 ⟨0, [PyOp.awaitOp "websocket.send_json",
        PyOp.awaitOp "asyncio.sleep"]⟩ (PyOp.awaitOp "websocket.send_json")
      [PyOp.awaitOp "asyncio.sleep"] (by decide) (by decide) (Or.inr rfl)
  have s5 : LStep blockedLoop4 blockedRun :=
    LStep.exec blockedLoop4 ⟨1, [PyOp.syncCall "dispatch B ping"]⟩
      (PyOp.syncCall "dispatch B ping") [] (by decide) (by decide) (Or.inl rfl)
  exact LSteps.tail (LSteps.tail (LSteps.tail (LSteps.tail
    (LSteps.tail (LSteps.refl _) s1) s2) s3) s4) s5

end EventLoop

theorem monitor_responder_blocks_witness :
    (0, EventLoop.genOp) ∈ EventLoop.blockedRun.executed := by
  have h := monitor_responder_call_blocks_event_loop
  exact h.2.2 EventLoop.blockedRun EventLoop.blockedRun_reached
    (EventLoop.PyOp.syncCall "dispatch B ping") (by decide)
